import Mathlib

/-!
Shallow embedding of the curve-reordering core of `resmon.py` from the
`pgoelz/equalized` repository.

Python floats are modelled by exact rationals (`ℚ`).  Python runtime
failures are made explicit: `reorder_step` returns an `Except PyErr`
value whose error constructors correspond to the Python exceptions that
the function can raise (`AssertionError` from its `assert` statements,
`IndexError` from out-of-range list indexing, `ZeroDivisionError` from
float division by zero, and the explicit `raise Exception(...)` at the
end of the function).

The two `while` loops of `reorder_step` are translated into structurally
recursive functions driven by a fuel parameter.  The fuel passed by
`reorder_step` (`curve.length + 1` for the initialisation loop and
`2 * curve.length + 1` for the main loop) strictly exceeds the number of
iterations either loop can perform, because every iteration of the
initialisation loop increases `r` and every iteration of the main loop
increases `l` or `r`, while the loops stop as soon as a pointer reaches
`curve.length`; the fuel-exhaustion branches return the same value as
the corresponding loop-exit branches, so they are unobservable.
-/

/-- `EPS = 0.00005`, the rounding tolerance of `resmon.py`. -/
def EPS : ℚ := 5 / 100000

/-- A line segment of a curve, with relative displacement `(x, y)` and a
provenance range `style` (a pair of fractions of the original curve). -/
structure LineSegment where
  x : ℚ
  y : ℚ
  style : ℚ × ℚ
  deriving DecidableEq, Repr

/-- `LineSegment.split`: cut a segment at `fraction`, scaling the
displacement by `fraction` and `1 - fraction` and splitting the style
range proportionally (lines 19-24 of `resmon.py`). -/
def LineSegment.split (s : LineSegment) (fraction : ℚ) :
    LineSegment × LineSegment :=
  let left_style : ℚ × ℚ :=
    (s.style.1, s.style.1 + fraction * (s.style.2 - s.style.1))
  let right_style : ℚ × ℚ := (left_style.2, s.style.2)
  (⟨fraction * s.x, fraction * s.y, left_style⟩,
   ⟨(1 - fraction) * s.x, (1 - fraction) * s.y, right_style⟩)

/-- Python's `int(...)` applied to a rational: truncation toward zero. -/
def truncQ (q : ℚ) : ℤ :=
  if 0 ≤ q then ⌊q⌋ else ⌈q⌉

/-- Python's `round(...)` applied to a rational: round half to even. -/
def pyRound (q : ℚ) : ℤ :=
  if q - ⌊q⌋ < 1 / 2 then ⌊q⌋
  else if 1 / 2 < q - ⌊q⌋ then ⌊q⌋ + 1
  else if ⌊q⌋ % 2 = 0 then ⌊q⌋ else ⌊q⌋ + 1

/-- The Python standard library `colorsys.hsv_to_rgb`, transcribed over
rationals (`int(h*6.0)` truncates toward zero, `i % 6` is Python's
nonnegative remainder, matched by `Int.emod`). -/
def hsv_to_rgb (h s v : ℚ) : ℚ × ℚ × ℚ :=
  if s = 0 then (v, v, v)
  else
    let i0 : ℤ := truncQ (h * 6)
    let f : ℚ := h * 6 - (i0 : ℚ)
    let p : ℚ := v * (1 - s)
    let q : ℚ := v * (1 - s * f)
    let t : ℚ := v * (1 - s * (1 - f))
    let i : ℤ := i0 % 6
    if i = 0 then (v, t, p)
    else if i = 1 then (q, v, p)
    else if i = 2 then (p, v, t)
    else if i = 3 then (p, q, v)
    else if i = 4 then (t, p, v)
    else (v, p, q)

/-- `LineSegment.get_color` (lines 29-33 of `resmon.py`): hue obtained by
mapping the average of the two fractions into the segment's style range,
converted to an RGB triple scaled to `[0, 255]` and rounded. -/
def LineSegment.get_color (s : LineSegment) (lower_frac upper_frac : ℚ) :
    ℤ × ℤ × ℤ :=
  let avg_frac := (lower_frac + upper_frac) / 2
  let hue := s.style.1 + (s.style.2 - s.style.1) * avg_frac
  let c := hsv_to_rgb hue 1 1
  (pyRound (255 * c.1), pyRound (255 * c.2.1), pyRound (255 * c.2.2))

/-- Least `n : ℕ` with `q ≤ n ^ 2`, found by linear search from `n`
upward (bounded by the fuel, which `sqrtCeil` chooses large enough). -/
def sqrtCeilAux (q : ℚ) : ℕ → ℕ → ℕ
  | 0, n => n
  | fuel + 1, n => if q ≤ (n : ℚ) ^ 2 then n else sqrtCeilAux q fuel (n + 1)

/-- `sqrtCeil q` is the least `n : ℕ` with `q ≤ n ^ 2`; for `q ≥ 0` this
equals `⌈Real.sqrt q⌉`.  Used to model `ceil(sqrt(...) / precision)`. -/
def sqrtCeil (q : ℚ) : ℕ := sqrtCeilAux q (⌈q⌉.toNat + 1) 0

/-- Greatest `n : ℕ` with `n ^ 2 ≤ q`, found by linear search (the
search stops at the last `n` whose successor overshoots). -/
def sqrtFloorAux (q : ℚ) : ℕ → ℕ → ℕ
  | 0, n => n
  | fuel + 1, n =>
    if q < ((n : ℚ) + 1) ^ 2 then n else sqrtFloorAux q fuel (n + 1)

/-- `sqrtFloor q` is the greatest `n : ℕ` with `n ^ 2 ≤ q` (for `q ≥ 0`);
this equals `⌊Real.sqrt q⌋`. -/
def sqrtFloor (q : ℚ) : ℕ := sqrtFloorAux q (⌈q⌉.toNat + 1) 0

/-- `ceil(sqrt(x² + y²) / precision)` from line 37 of `resmon.py`, for
`precision ≠ 0`.  For `precision > 0` this is the least `n ≥ 0` with
`(n · precision)² ≥ x² + y²`, i.e. `sqrtCeil ((x² + y²) / precision²)`;
for `precision < 0` the quotient is `≤ 0` and its ceiling is
`-⌊sqrt(x² + y²) / |precision|⌋`. -/
def num_segments (s : LineSegment) (precision : ℚ) : ℤ :=
  if 0 < precision then (sqrtCeil ((s.x ^ 2 + s.y ^ 2) / precision ^ 2) : ℤ)
  else -(sqrtFloor ((s.x ^ 2 + s.y ^ 2) / precision ^ 2) : ℤ)

/-- `LineSegment.to_tikz` (lines 35-44 of `resmon.py`), with the textual
TikZ wrapping stripped: the result is the ordered list of emitted
micro-strokes, each a `(color, dx, dy)` triple.  `none` models the
`ZeroDivisionError` raised when `precision` is zero (`sqrt(...) / 0.0`)
or when `num_segments` is zero (`self.x / 0`); Python's
`range(num_segments)` is empty when `num_segments < 0`. -/
def LineSegment.to_tikz (s : LineSegment) (precision : ℚ) :
    Option (List ((ℤ × ℤ × ℤ) × ℚ × ℚ)) :=
  if precision = 0 then none
  else
    let n : ℤ := num_segments s precision
    if n = 0 then none
    else
      let x := s.x / (n : ℚ)
      let y := s.y / (n : ℚ)
      some ((List.range n.toNat).map fun i : ℕ =>
        (s.get_color (((i : ℕ) : ℚ) / ((n : ℚ) + 1)) ((((i : ℕ) : ℚ) + 1) / ((n : ℚ) + 1)),
         x, y))

/-- The Python exceptions that `reorder_step` can raise. -/
inductive PyErr where
  /-- a failed `assert` statement -/
  | assertionError
  /-- list indexing out of range -/
  | indexError
  /-- float division by zero -/
  | zeroDivisionError
  /-- the explicit `raise Exception(...)` at line 172 of `resmon.py` -/
  | exception
  deriving DecidableEq, Repr

/-- `curve[i]` under the assumption `i < curve.length` (used only where
the surrounding code has already checked the bound). -/
def nthSeg (curve : List LineSegment) (i : ℕ) : LineSegment :=
  curve.getD i ⟨0, 0, (0, 0)⟩

/-- Sum of the segment widths of a curve. -/
def sumX : List LineSegment → ℚ
  | [] => 0
  | s :: t => s.x + sumX t

/-- Sum of the segment heights of a curve. -/
def sumY : List LineSegment → ℚ
  | [] => 0
  | s :: t => s.y + sumY t

/-- The Python slicing operation `curve[a:b]`. -/
def pySlice (curve : List LineSegment) (a b : ℕ) : List LineSegment :=
  (curve.drop a).take (b - a)

/-- `min_l_pos` (lines 102-109 of `resmon.py`): x-position of the left
end of the leftmost valid frame, relative to the start of segment `l`. -/
def minLPos (sx x : ℚ) : ℚ :=
  if sx ≥ x then 0 else x - sx

/-- `min_r_pos` (lines 102-109): x-position of the right end of the
leftmost valid frame, relative to the start of segment `r`. -/
def minRPos (sx x : ℚ) : ℚ :=
  if sx ≥ x then sx - x else 0

/-- `max_l_pos` (lines 111-121), with `right_aligned_x = x + cr.x - cl.x`. -/
def maxLPos (sx x : ℚ) (cl cr : LineSegment) : ℚ :=
  if sx ≥ x + cr.x - cl.x then cl.x - (sx - (x + cr.x - cl.x)) else cl.x

/-- `max_r_pos` (lines 111-121). -/
def maxRPos (sx x : ℚ) (cl cr : LineSegment) : ℚ :=
  if sx ≥ x + cr.x - cl.x then cr.x else cr.x - (x + cr.x - cl.x - sx)

/-- `min_y_diff` (line 126): height of the leftmost valid frame. -/
def minYDiff (sx x y : ℚ) (cl cr : LineSegment) : ℚ :=
  y - minLPos sx x / cl.x * cl.y + minRPos sx x / cr.x * cr.y

/-- `max_y_diff` (line 127): height of the rightmost valid frame. -/
def maxYDiff (sx x y : ℚ) (cl cr : LineSegment) : ℚ :=
  y - maxLPos sx x cl cr / cl.x * cl.y + maxRPos sx x cl cr / cr.x * cr.y

/-- The initialisation loop of `reorder_step` (lines 74-77): advance `r`
while `x + curve[r].x < sx`, accumulating the running sums.  Evaluating
the loop condition indexes `curve[r]`, so reaching `r = curve.length`
raises `IndexError`.  The fuel-0 branch returns the same `IndexError`
and is unreachable from `initLoop`'s fuel. -/
def initLoopGo (sx : ℚ) (curve : List LineSegment) :
    ℕ → ℕ → ℚ → ℚ → Except PyErr (ℕ × ℚ × ℚ)
  | 0, _, _, _ => Except.error PyErr.indexError
  | fuel + 1, r, x, y =>
    if r < curve.length then
      if x + (nthSeg curve r).x < sx then
        initLoopGo sx curve fuel (r + 1)
          (x + (nthSeg curve r).x) (y + (nthSeg curve r).y)
      else Except.ok (r, x, y)
    else Except.error PyErr.indexError

/-- The initialisation loop of `reorder_step`, started from `r = 0` with
zero running sums. -/
def initLoop (sx : ℚ) (curve : List LineSegment) : Except PyErr (ℕ × ℚ × ℚ) :=
  initLoopGo sx curve (curve.length + 1) 0 0 0

/-- The `(found_section, rest)` pair assembled by lines 129-151 of
`resmon.py` when the main loop finds a valid window at pointers
`(l, r)` with running sums `(x, y)`: the interpolation fraction `fr`
(zero when the two frame heights coincide), the split offsets inside
segments `l` and `r`, the two splits, and the reassembly with
numerically-zero pieces dropped. -/
def foundRest (sx sy : ℚ) (curve : List LineSegment) (l r : ℕ) (x y : ℚ) :
    List LineSegment × List LineSegment :=
  let cl := nthSeg curve l
  let cr := nthSeg curve r
  let fr : ℚ :=
    if maxYDiff sx x y cl cr = minYDiff sx x y cl cr then 0
    else (sy - minYDiff sx x y cl cr) /
         (maxYDiff sx x y cl cr - minYDiff sx x y cl cr)
  let of_left := (fr * maxLPos sx x cl cr + (1 - fr) * minLPos sx x) / cl.x
  let of_right := (fr * maxRPos sx x cl cr + (1 - fr) * minRPos sx x) / cr.x
  let ls := cl.split of_left
  let rs := cr.split of_right
  let mid1 :=
    (if ls.1.x > 0 ∨ ls.1.y > 0 then [ls.1] else []) ++
    (if rs.2.x > 0 ∨ rs.2.y > 0 then [rs.2] else [])
  let mid2 := if ls.2.x > 0 ∨ ls.2.y > 0 then [ls.2] else []
  let mid3 := if rs.1.x > 0 ∨ rs.1.y > 0 then [rs.1] else []
  (mid2 ++ pySlice curve (l + 1) r ++ mid3,
   curve.take l ++ mid1 ++ curve.drop (r + 1))

/-- The main loop of `reorder_step` (lines 79-170).  Each iteration
checks the two assertions, computes the extreme frames and their
heights (raising `ZeroDivisionError` if `curve[l].x` or `curve[r].x` is
zero), returns the split decomposition `foundRest` when `sy` lies
between the two heights, and otherwise advances `l` and/or `r`.
Leaving the loop (either pointer reaching `curve.length`) gives the
explicit `raise Exception(...)`; the fuel-0 branch returns the same
value and is unreachable from `reorder_step`'s fuel. -/
def mainLoopGo (sx sy : ℚ) (curve : List LineSegment) :
    ℕ → ℕ → ℕ → ℚ → ℚ → Except PyErr (List LineSegment × List LineSegment)
  | 0, _, _, _, _ => Except.error PyErr.exception
  | fuel + 1, l, r, x, y =>
    if l < curve.length ∧ r < curve.length then
      let cl := nthSeg curve l
      let cr := nthSeg curve r
      if x - cl.x < sx then
        if sx ≤ x + cr.x then
          if cl.x = 0 ∨ cr.x = 0 then Except.error PyErr.zeroDivisionError
          else if minYDiff sx x y cl cr ≤ sy ∧ sy ≤ maxYDiff sx x y cl cr then
            Except.ok (foundRest sx sy curve l r x y)
          else if x - cl.x + cr.x = sx then
            mainLoopGo sx sy curve fuel (l + 1) (r + 1)
              (x + cr.x - cl.x) (y + cr.y - cl.y)
          else if x - cl.x + cr.x < sx then
            mainLoopGo sx sy curve fuel l (r + 1) (x + cr.x) (y + cr.y)
          else
            mainLoopGo sx sy curve fuel (l + 1) r (x - cl.x) (y - cl.y)
        else Except.error PyErr.assertionError
      else Except.error PyErr.assertionError
    else Except.error PyErr.exception

/-- `reorder_step(segment_x, segment_y, curve)` (lines 47-172 of
`resmon.py`): base case within `EPS`, height assertion, initialisation
loop, then the two-pointer main loop. -/
def reorder_step (sx sy : ℚ) (curve : List LineSegment) :
    Except PyErr (List LineSegment × List LineSegment) :=
  if |sumX curve - sx| < EPS then
    if |sumY curve - sy| < EPS then Except.ok (curve, [])
    else Except.error PyErr.assertionError
  else
    match initLoop sx curve with
    | Except.error e => Except.error e
    | Except.ok (r, x, y) => mainLoopGo sx sy curve (2 * curve.length + 1) 0 r x y

/-- Instrumentation of `mainLoopGo`: the list of `(l, r, x, y)` states at
the moment each iteration of the main loop starts (that is, each time the
loop body is entered), following exactly the control flow of
`mainLoopGo`. -/
def iterStatesGo (sx sy : ℚ) (curve : List LineSegment) :
    ℕ → ℕ → ℕ → ℚ → ℚ → List (ℕ × ℕ × ℚ × ℚ)
  | 0, _, _, _, _ => []
  | fuel + 1, l, r, x, y =>
    if l < curve.length ∧ r < curve.length then
      (l, r, x, y) ::
        (let cl := nthSeg curve l
         let cr := nthSeg curve r
         if x - cl.x < sx then
           if sx ≤ x + cr.x then
             if cl.x = 0 ∨ cr.x = 0 then []
             else if minYDiff sx x y cl cr ≤ sy ∧ sy ≤ maxYDiff sx x y cl cr then []
             else if x - cl.x + cr.x = sx then
               iterStatesGo sx sy curve fuel (l + 1) (r + 1)
                 (x + cr.x - cl.x) (y + cr.y - cl.y)
             else if x - cl.x + cr.x < sx then
               iterStatesGo sx sy curve fuel l (r + 1) (x + cr.x) (y + cr.y)
             else
               iterStatesGo sx sy curve fuel (l + 1) r (x - cl.x) (y - cl.y)
           else []
         else [])
    else []

/-- The `(l, r, x, y)` states at the start of each main-loop iteration of
a `reorder_step` call (empty if the base case returns or the
initialisation loop raises). -/
def reorderStates (sx sy : ℚ) (curve : List LineSegment) :
    List (ℕ × ℕ × ℚ × ℚ) :=
  if |sumX curve - sx| < EPS then []
  else
    match initLoop sx curve with
    | Except.error _ => []
    | Except.ok (r, x, y) => iterStatesGo sx sy curve (2 * curve.length + 1) 0 r x y

/-- Sum of the `dx` components of a list of `to_tikz` strokes. -/
def strokesSumX (L : List ((ℤ × ℤ × ℤ) × ℚ × ℚ)) : ℚ :=
  (L.map fun st => st.2.1).sum

/-- Sum of the `dy` components of a list of `to_tikz` strokes. -/
def strokesSumY (L : List ((ℤ × ℤ × ℤ) × ℚ × ℚ)) : ℚ :=
  (L.map fun st => st.2.2).sum

/-- The hue assigned to the `i`-th of `n` strokes of a segment: the
midpoint of the span `[i/(n+1), (i+1)/(n+1)]` mapped into the segment's
style range. -/
def strokeHue (s : LineSegment) (n i : ℕ) : ℚ :=
  s.style.1 + (s.style.2 - s.style.1) * ((2 * (i : ℚ) + 1) / (2 * ((n : ℚ) + 1)))

/-- HSV-to-RGB conversion at saturation 1 and value 1, with each channel
scaled to `[0, 255]` and rounded. -/
def hueToRGB255 (hue : ℚ) : ℤ × ℤ × ℤ :=
  (pyRound (255 * (hsv_to_rgb hue 1 1).1),
   pyRound (255 * (hsv_to_rgb hue 1 1).2.1),
   pyRound (255 * (hsv_to_rgb hue 1 1).2.2))

/-- The curve of concrete scenario 2 of the spec (also the second
`assert` of `resmon.py`'s `__main__` block). -/
def scenario2Curve : List LineSegment :=
  [⟨7/10, 3/10, (0, 1/2)⟩, ⟨3/10, 7/10, (1/2, 1)⟩]

/-- A four-segment convex curve (slopes 0, 1, 2, 100) used to count
main-loop iterations. -/
def stairCurve : List LineSegment :=
  [⟨1, 0, (0, 1/4)⟩, ⟨1, 1, (1/4, 1/2)⟩, ⟨1, 2, (1/2, 3/4)⟩, ⟨1, 100, (3/4, 1)⟩]

/-- A three-segment convex curve (slopes 0, 1, 10) used to inspect the
running sums at iteration starts. -/
def rampCurve : List LineSegment :=
  [⟨1, 0, (0, 1/3)⟩, ⟨1, 1, (1/3, 2/3)⟩, ⟨1, 10, (2/3, 1)⟩]

/-- A curve whose first segment has zero width. -/
def zeroWidthCurve : List LineSegment := [⟨0, 1, (0, 1/2)⟩, ⟨1, 5, (1/2, 1)⟩]

/-- A non-convex curve (slopes 0 then -1): invalid input for
`reorder_step`, which expects a convex lower curve. -/
def nonConvexCurve : List LineSegment := [⟨1, 0, (0, 1/2)⟩, ⟨1, -1, (1/2, 1)⟩]

/-- A segment with length 5 and a degenerate (constant-hue) style range. -/
def rgbSeg : LineSegment := ⟨3, 4, (0, 0)⟩

/-- The three strokes `rgbSeg.to_tikz 2` emits. -/
def redStrokes : List ((ℤ × ℤ × ℤ) × ℚ × ℚ) :=
  [((255, 0, 0), 1, 4/3), ((255, 0, 0), 1, 4/3), ((255, 0, 0), 1, 4/3)]

/-! ### Basic arithmetic and list helper lemmas -/

theorem EPS_pos : 0 < EPS := by norm_num [EPS]

theorem nthSeg_mem {curve : List LineSegment} {i : ℕ} (h : i < curve.length) :
    nthSeg curve i ∈ curve := by
  rw [nthSeg, List.getD_eq_getElem _ _ h]
  exact List.getElem_mem h

theorem sumX_append (a b : List LineSegment) :
    sumX (a ++ b) = sumX a + sumX b := by
  induction a with
  | nil => simp [sumX]
  | cons s t ih => simp [sumX, ih]; ring

theorem sumY_append (a b : List LineSegment) :
    sumY (a ++ b) = sumY a + sumY b := by
  induction a with
  | nil => simp [sumY]
  | cons s t ih => simp [sumY, ih]; ring

theorem sumX_take_succ {curve : List LineSegment} {r : ℕ} (h : r < curve.length) :
    sumX (curve.take (r + 1)) = sumX (curve.take r) + (nthSeg curve r).x := by
  rw [nthSeg, List.getD_eq_getElem _ _ h, List.take_succ, List.getElem?_eq_getElem h]
  rw [Option.toList_some, sumX_append]
  simp [sumX]

theorem sumY_take_succ {curve : List LineSegment} {r : ℕ} (h : r < curve.length) :
    sumY (curve.take (r + 1)) = sumY (curve.take r) + (nthSeg curve r).y := by
  rw [nthSeg, List.getD_eq_getElem _ _ h, List.take_succ, List.getElem?_eq_getElem h]
  rw [Option.toList_some, sumY_append]
  simp [sumY]

theorem sumX_nonneg {L : List LineSegment} (h : ∀ s ∈ L, 0 ≤ s.x) :
    0 ≤ sumX L := by
  induction L with
  | nil => simp [sumX]
  | cons s t ih =>
    have h1 := h s (by simp)
    have h2 := ih fun a ha => h a (by simp [ha])
    simp only [sumX]
    linarith

theorem sumX_take_le {curve : List LineSegment} (h : ∀ s ∈ curve, 0 ≤ s.x)
    (k : ℕ) : sumX (curve.take k) ≤ sumX curve := by
  conv_rhs => rw [← List.take_append_drop k curve]
  rw [sumX_append]
  have h0 : 0 ≤ sumX (curve.drop k) :=
    sumX_nonneg fun s hs => h s (List.mem_of_mem_drop hs)
  linarith

theorem pySlice_eq_drop_take (curve : List LineSegment) {l r : ℕ} (h : l ≤ r) :
    pySlice curve l r = (curve.take r).drop l := by
  have hr : l + (r - l) = r := by omega
  rw [pySlice, List.take_drop, hr]

theorem sumX_pySlice (curve : List LineSegment) {l r : ℕ} (h : l ≤ r) :
    sumX (pySlice curve l r) = sumX (curve.take r) - sumX (curve.take l) := by
  have h3 : (curve.take r).take l = curve.take l := by
    rw [List.take_take]
    congr 1
    omega
  have h4 := congrArg sumX (List.take_append_drop l (curve.take r))
  rw [sumX_append, h3] at h4
  rw [pySlice_eq_drop_take curve h]
  linarith

theorem sumY_pySlice (curve : List LineSegment) {l r : ℕ} (h : l ≤ r) :
    sumY (pySlice curve l r) = sumY (curve.take r) - sumY (curve.take l) := by
  have h3 : (curve.take r).take l = curve.take l := by
    rw [List.take_take]
    congr 1
    omega
  have h4 := congrArg sumY (List.take_append_drop l (curve.take r))
  rw [sumY_append, h3] at h4
  rw [pySlice_eq_drop_take curve h]
  linarith

/-! ### One-iteration unfolding lemmas for the loops -/

theorem initLoopGo_adv (sx : ℚ) (curve : List LineSegment) (fuel r : ℕ) (x y : ℚ)
    (hr : r < curve.length) (hc : x + (nthSeg curve r).x < sx) :
    initLoopGo sx curve (fuel + 1) r x y =
      initLoopGo sx curve fuel (r + 1)
        (x + (nthSeg curve r).x) (y + (nthSeg curve r).y) := by
  simp only [initLoopGo]
  rw [if_pos hr, if_pos hc]

theorem initLoopGo_stop (sx : ℚ) (curve : List LineSegment) (fuel r : ℕ) (x y : ℚ)
    (hr : r < curve.length) (hc : ¬(x + (nthSeg curve r).x < sx)) :
    initLoopGo sx curve (fuel + 1) r x y = Except.ok (r, x, y) := by
  simp only [initLoopGo]
  rw [if_pos hr, if_neg hc]

theorem initLoopGo_oob (sx : ℚ) (curve : List LineSegment) (fuel r : ℕ) (x y : ℚ)
    (hr : ¬ r < curve.length) :
    initLoopGo sx curve (fuel + 1) r x y = Except.error PyErr.indexError := by
  simp only [initLoopGo]
  rw [if_neg hr]

theorem mainLoopGo_found (sx sy : ℚ) (curve : List LineSegment) (fuel l r : ℕ)
    (x y : ℚ) (hg : l < curve.length ∧ r < curve.length)
    (h1 : x - (nthSeg curve l).x < sx)
    (h2 : sx ≤ x + (nthSeg curve r).x)
    (hz : ¬((nthSeg curve l).x = 0 ∨ (nthSeg curve r).x = 0))
    (hy : minYDiff sx x y (nthSeg curve l) (nthSeg curve r) ≤ sy ∧
          sy ≤ maxYDiff sx x y (nthSeg curve l) (nthSeg curve r)) :
    mainLoopGo sx sy curve (fuel + 1) l r x y =
      Except.ok (foundRest sx sy curve l r x y) := by
  simp only [mainLoopGo]
  rw [if_pos hg, if_pos h1, if_pos h2, if_neg hz, if_pos hy]

theorem mainLoopGo_adv_both (sx sy : ℚ) (curve : List LineSegment) (fuel l r : ℕ)
    (x y : ℚ) (hg : l < curve.length ∧ r < curve.length)
    (h1 : x - (nthSeg curve l).x < sx)
    (h2 : sx ≤ x + (nthSeg curve r).x)
    (hz : ¬((nthSeg curve l).x = 0 ∨ (nthSeg curve r).x = 0))
    (hy : ¬(minYDiff sx x y (nthSeg curve l) (nthSeg curve r) ≤ sy ∧
            sy ≤ maxYDiff sx x y (nthSeg curve l) (nthSeg curve r)))
    (he : x - (nthSeg curve l).x + (nthSeg curve r).x = sx) :
    mainLoopGo sx sy curve (fuel + 1) l r x y =
      mainLoopGo sx sy curve fuel (l + 1) (r + 1)
        (x + (nthSeg curve r).x - (nthSeg curve l).x)
        (y + (nthSeg curve r).y - (nthSeg curve l).y) := by
  simp only [mainLoopGo]
  rw [if_pos hg, if_pos h1, if_pos h2, if_neg hz, if_neg hy, if_pos he]

theorem mainLoopGo_adv_r (sx sy : ℚ) (curve : List LineSegment) (fuel l r : ℕ)
    (x y : ℚ) (hg : l < curve.length ∧ r < curve.length)
    (h1 : x - (nthSeg curve l).x < sx)
    (h2 : sx ≤ x + (nthSeg curve r).x)
    (hz : ¬((nthSeg curve l).x = 0 ∨ (nthSeg curve r).x = 0))
    (hy : ¬(minYDiff sx x y (nthSeg curve l) (nthSeg curve r) ≤ sy ∧
            sy ≤ maxYDiff sx x y (nthSeg curve l) (nthSeg curve r)))
    (he : ¬(x - (nthSeg curve l).x + (nthSeg curve r).x = sx))
    (hlt : x - (nthSeg curve l).x + (nthSeg curve r).x < sx) :
    mainLoopGo sx sy curve (fuel + 1) l r x y =
      mainLoopGo sx sy curve fuel l (r + 1)
        (x + (nthSeg curve r).x) (y + (nthSeg curve r).y) := by
  simp only [mainLoopGo]
  rw [if_pos hg, if_pos h1, if_pos h2, if_neg hz, if_neg hy, if_neg he, if_pos hlt]

theorem mainLoopGo_adv_l (sx sy : ℚ) (curve : List LineSegment) (fuel l r : ℕ)
    (x y : ℚ) (hg : l < curve.length ∧ r < curve.length)
    (h1 : x - (nthSeg curve l).x < sx)
    (h2 : sx ≤ x + (nthSeg curve r).x)
    (hz : ¬((nthSeg curve l).x = 0 ∨ (nthSeg curve r).x = 0))
    (hy : ¬(minYDiff sx x y (nthSeg curve l) (nthSeg curve r) ≤ sy ∧
            sy ≤ maxYDiff sx x y (nthSeg curve l) (nthSeg curve r)))
    (he : ¬(x - (nthSeg curve l).x + (nthSeg curve r).x = sx))
    (hlt : ¬(x - (nthSeg curve l).x + (nthSeg curve r).x < sx)) :
    mainLoopGo sx sy curve (fuel + 1) l r x y =
      mainLoopGo sx sy curve fuel (l + 1) r
        (x - (nthSeg curve l).x) (y - (nthSeg curve l).y) := by
  simp only [mainLoopGo]
  rw [if_pos hg, if_pos h1, if_pos h2, if_neg hz, if_neg hy, if_neg he, if_neg hlt]

theorem mainLoopGo_div_zero (sx sy : ℚ) (curve : List LineSegment) (fuel l r : ℕ)
    (x y : ℚ) (hg : l < curve.length ∧ r < curve.length)
    (h1 : x - (nthSeg curve l).x < sx)
    (h2 : sx ≤ x + (nthSeg curve r).x)
    (hz : (nthSeg curve l).x = 0 ∨ (nthSeg curve r).x = 0) :
    mainLoopGo sx sy curve (fuel + 1) l r x y =
      Except.error PyErr.zeroDivisionError := by
  simp only [mainLoopGo]
  rw [if_pos hg, if_pos h1, if_pos h2, if_pos hz]

/-! ### Claim theorems -/

/-- Claim C2: `reorder_step(0.5, 0.5, [LineSegment(0.7, 0.3, (0, 0.5)),
LineSegment(0.3, 0.7, (0.5, 1))])` returns
`found = [LineSegment(0.35, 0.15, (0.25, 0.5)), LineSegment(0.15, 0.35, (0.5, 0.75))]`
and `rest = [LineSegment(0.35, 0.15, (0, 0.25)), LineSegment(0.15, 0.35, (0.75, 1.0))]`. -/
theorem reorder_step_scenario2 :
    reorder_step (1/2) (1/2) scenario2Curve =
      Except.ok ([⟨7/20, 3/20, (1/4, 1/2)⟩, ⟨3/20, 7/20, (1/2, 3/4)⟩],
                 [⟨7/20, 3/20, (0, 1/4)⟩, ⟨3/20, 7/20, (3/4, 1)⟩]) := by
  have hN0 : nthSeg scenario2Curve 0 = ⟨7/10, 3/10, (0, 1/2)⟩ := rfl
  have hN1 : nthSeg scenario2Curve 1 = ⟨3/10, 7/10, (1/2, 1)⟩ := rfl
  have hg : (0 < scenario2Curve.length ∧ 0 < scenario2Curve.length) := by
    norm_num [scenario2Curve]
  have hg1 : (0 < scenario2Curve.length ∧ 1 < scenario2Curve.length) := by
    norm_num [scenario2Curve]
  have hbase : ¬ |sumX scenario2Curve - 1/2| < EPS := by
    norm_num [sumX, scenario2Curve, EPS, abs_lt]
  have hinit : initLoop (1/2) scenario2Curve = Except.ok (0, 0, 0) :=
    initLoopGo_stop (1/2) scenario2Curve _ 0 0 0 hg.1 (by rw [hN0]; norm_num)
  have hlen : 2 * scenario2Curve.length + 1 = 5 := rfl
  have s1 := mainLoopGo_adv_r (1/2) (1/2) scenario2Curve 4 0 0 0 0 hg
    (by rw [hN0]; norm_num)
    (by rw [hN0]; norm_num)
    (by rw [hN0]; norm_num)
    (by rw [hN0]; norm_num [minYDiff, maxYDiff, minLPos, minRPos, maxLPos, maxRPos])
    (by rw [hN0]; norm_num)
    (by rw [hN0]; norm_num)
  rw [hN0] at s1
  norm_num at s1
  have s2 := mainLoopGo_found (1/2) (1/2) scenario2Curve 3 0 1 (7/10) (3/10) hg1
    (by rw [hN0]; norm_num)
    (by rw [hN1]; norm_num)
    (by rw [hN0, hN1]; norm_num)
    (by rw [hN0, hN1]; norm_num [minYDiff, maxYDiff, minLPos, minRPos, maxLPos, maxRPos])
  norm_num at s2
  have hfr : foundRest (1/2) (1/2) scenario2Curve 0 1 (7/10) (3/10) =
      ([⟨7/20, 3/20, (1/4, 1/2)⟩, ⟨3/20, 7/20, (1/2, 3/4)⟩],
       [⟨7/20, 3/20, (0, 1/4)⟩, ⟨3/20, 7/20, (3/4, 1)⟩]) := by
    norm_num [foundRest, nthSeg, List.getD, minYDiff, maxYDiff, minLPos, minRPos,
      maxLPos, maxRPos, LineSegment.split, pySlice, scenario2Curve]
  rw [reorder_step, if_neg hbase, hinit]
  show mainLoopGo (1/2) (1/2) scenario2Curve (2 * scenario2Curve.length + 1) 0 0 0 0 = _
  rw [hlen, s1, s2, hfr]

/-- Claim C7: `split(f)` scales the displacement by `f` and `1 - f`,
produces `left.style = (a, a + f·(b - a))` and
`right.style = (left.style.2, b)`, and the displacements and the style
range add back exactly (left and right styles are contiguous). -/
theorem split_spec (s : LineSegment) (f : ℚ) (h0 : 0 ≤ f) (h1 : f ≤ 1) :
    (s.split f).1 = ⟨f * s.x, f * s.y,
        (s.style.1, s.style.1 + f * (s.style.2 - s.style.1))⟩ ∧
    (s.split f).2 = ⟨(1 - f) * s.x, (1 - f) * s.y,
        ((s.split f).1.style.2, s.style.2)⟩ ∧
    (s.split f).1.x + (s.split f).2.x = s.x ∧
    (s.split f).1.y + (s.split f).2.y = s.y ∧
    (s.split f).1.style.1 = s.style.1 ∧
    (s.split f).2.style.2 = s.style.2 ∧
    (s.split f).1.style.2 = (s.split f).2.style.1 := by
  refine ⟨rfl, rfl, ?_, ?_, rfl, rfl, rfl⟩ <;> (simp [LineSegment.split]; ring)

theorem split_spec_witness :
    ((⟨2, 3, (0, 1)⟩ : LineSegment).split (1/4)).1 =
        ⟨(1/4) * 2, (1/4) * 3, (0, 0 + (1/4) * (1 - 0))⟩ ∧
    ((⟨2, 3, (0, 1)⟩ : LineSegment).split (1/4)).2 =
        ⟨(1 - 1/4) * 2, (1 - 1/4) * 3,
          ((((⟨2, 3, (0, 1)⟩ : LineSegment).split (1/4)).1.style.2 : ℚ), 1)⟩ ∧
    ((⟨2, 3, (0, 1)⟩ : LineSegment).split (1/4)).1.x +
      ((⟨2, 3, (0, 1)⟩ : LineSegment).split (1/4)).2.x = 2 ∧
    ((⟨2, 3, (0, 1)⟩ : LineSegment).split (1/4)).1.y +
      ((⟨2, 3, (0, 1)⟩ : LineSegment).split (1/4)).2.y = 3 ∧
    ((⟨2, 3, (0, 1)⟩ : LineSegment).split (1/4)).1.style.1 = 0 ∧
    ((⟨2, 3, (0, 1)⟩ : LineSegment).split (1/4)).2.style.2 = 1 ∧
    ((⟨2, 3, (0, 1)⟩ : LineSegment).split (1/4)).1.style.2 =
      ((⟨2, 3, (0, 1)⟩ : LineSegment).split (1/4)).2.style.1 :=
  split_spec ⟨2, 3, (0, 1)⟩ (1/4) (by norm_num) (by norm_num)

/-- Claim C3: when the curve's total width is within `EPS` of the target
width, `reorder_step` asserts (rather than recomputes) that the curve's
total height is within `EPS` of the target height and returns
`(curve, [])` with the input curve unchanged. -/
theorem reorder_step_base_case (sx sy : ℚ) (curve : List LineSegment)
    (hx : |sumX curve - sx| < EPS) :
    reorder_step sx sy curve =
      if |sumY curve - sy| < EPS then Except.ok (curve, [])
      else Except.error PyErr.assertionError := by
  rw [reorder_step, if_pos hx]

theorem reorder_step_base_case_witness :
    reorder_step 1 1 [(⟨1/2, 1/2, (0, 1/2)⟩ : LineSegment), ⟨1/2, 1/2, (1/2, 1)⟩] =
      Except.ok ([⟨1/2, 1/2, (0, 1/2)⟩, ⟨1/2, 1/2, (1/2, 1)⟩], []) := by
  rw [reorder_step_base_case 1 1 _ (by norm_num [sumX, EPS, abs_lt]),
    if_pos (by norm_num [sumY, EPS, abs_lt])]

/-- Claim C1 (code bug): at the valid input `target = (0.5, 3/14)` with
the convex curve of concrete scenario 2 (the window of width `0.5` and
height `3/14` lies inside the first segment, so the main loop returns
with `l = r = 0`), `reorder_step` returns a `found` list of total width
`6/5`, not within `EPS` of the target width `1/2`, and
`found ++ rest` has total width `17/10` although the curve's total width
is `1`: the first segment is counted twice, violating conservation. -/
theorem reorder_step_same_segment_window_eval :
    reorder_step (1/2) (3/14) scenario2Curve =
      Except.ok ([⟨7/10, 3/10, (0, 1/2)⟩, ⟨1/2, 3/14, (0, 5/14)⟩],
                 [⟨1/5, 3/35, (5/14, 1/2)⟩, ⟨3/10, 7/10, (1/2, 1)⟩]) ∧
    sumX [(⟨7/10, 3/10, (0, 1/2)⟩ : LineSegment), ⟨1/2, 3/14, (0, 5/14)⟩] = 6/5 ∧
    ¬ |(6/5 : ℚ) - 1/2| < EPS ∧
    sumX ([(⟨7/10, 3/10, (0, 1/2)⟩ : LineSegment), ⟨1/2, 3/14, (0, 5/14)⟩] ++
          [⟨1/5, 3/35, (5/14, 1/2)⟩, ⟨3/10, 7/10, (1/2, 1)⟩]) = 17/10 ∧
    sumX scenario2Curve = 1 := by
  refine ⟨?_, by norm_num [sumX], by norm_num [EPS, abs_lt], by norm_num [sumX],
    by norm_num [sumX, scenario2Curve]⟩
  have hN0 : nthSeg scenario2Curve 0 = ⟨7/10, 3/10, (0, 1/2)⟩ := rfl
  have hg : (0 < scenario2Curve.length ∧ 0 < scenario2Curve.length) := by
    norm_num [scenario2Curve]
  have hbase : ¬ |sumX scenario2Curve - 1/2| < EPS := by
    norm_num [sumX, scenario2Curve, EPS, abs_lt]
  have hinit : initLoop (1/2) scenario2Curve = Except.ok (0, 0, 0) :=
    initLoopGo_stop (1/2) scenario2Curve _ 0 0 0 hg.1 (by rw [hN0]; norm_num)
  have hlen : 2 * scenario2Curve.length + 1 = 5 := rfl
  have s1 := mainLoopGo_found (1/2) (3/14) scenario2Curve 4 0 0 0 0 hg
    (by rw [hN0]; norm_num)
    (by rw [hN0]; norm_num)
    (by rw [hN0]; norm_num)
    (by rw [hN0]; norm_num [minYDiff, maxYDiff, minLPos, minRPos, maxLPos, maxRPos])
  norm_num at s1
  have hfr : foundRest (1/2) (3/14) scenario2Curve 0 0 0 0 =
      ([⟨7/10, 3/10, (0, 1/2)⟩, ⟨1/2, 3/14, (0, 5/14)⟩],
       [⟨1/5, 3/35, (5/14, 1/2)⟩, ⟨3/10, 7/10, (1/2, 1)⟩]) := by
    norm_num [foundRest, nthSeg, List.getD, minYDiff, maxYDiff, minLPos, minRPos,
      maxLPos, maxRPos, LineSegment.split, pySlice, scenario2Curve]
  rw [reorder_step, if_neg hbase, hinit]
  show mainLoopGo (1/2) (3/14) scenario2Curve (2 * scenario2Curve.length + 1) 0 0 0 0 = _
  rw [hlen, s1, hfr]

theorem initLoopGo_infeasible (sx : ℚ) (curve : List LineSegment)
    (hpos : ∀ s ∈ curve, 0 ≤ s.x) (hwide : sumX curve + EPS ≤ sx) :
    ∀ fuel r (x y : ℚ), x = sumX (curve.take r) →
      initLoopGo sx curve fuel r x y = Except.error PyErr.indexError := by
  intro fuel
  induction fuel with
  | zero => intro r x y _; rfl
  | succ fuel ih =>
    intro r x y hx
    by_cases hr : r < curve.length
    · have hcond : x + (nthSeg curve r).x < sx := by
        have h1 : x + (nthSeg curve r).x = sumX (curve.take (r + 1)) := by
          rw [hx, sumX_take_succ hr]
        have h2 : sumX (curve.take (r + 1)) ≤ sumX curve := sumX_take_le hpos _
        have h3 := EPS_pos
        linarith
      rw [initLoopGo_adv sx curve fuel r x y hr hcond]
      exact ih (r + 1) _ _ (by rw [hx, sumX_take_succ hr])
    · exact initLoopGo_oob sx curve fuel r x y hr

/-- Claim C5 (counterexample): the input `(3, 0, [LineSegment(1, 0, (0, 1))])`
is invalid (the target width 3 exceeds the curve's total width 1 by more
than `EPS`), and the call fails with `IndexError` — an unguarded runtime
error raised by `curve[r]` in the initialisation loop — not with an
`assert` failure and not with the explicit exhaustion `Exception`. -/
theorem invalid_input_unguarded_index_error :
    reorder_step 3 0 [(⟨1, 0, (0, 1)⟩ : LineSegment)] =
      Except.error PyErr.indexError ∧
    PyErr.indexError ≠ PyErr.assertionError ∧
    PyErr.indexError ≠ PyErr.exception ∧
    sumX [(⟨1, 0, (0, 1)⟩ : LineSegment)] + EPS ≤ 3 := by
  refine ⟨?_, by decide, by decide, by norm_num [sumX, EPS]⟩
  have hbase : ¬ |sumX [(⟨1, 0, (0, 1)⟩ : LineSegment)] - 3| < EPS := by
    norm_num [sumX, EPS, abs_lt]
  rw [reorder_step, if_neg hbase]
  have hinit : initLoop 3 [(⟨1, 0, (0, 1)⟩ : LineSegment)] =
      Except.error PyErr.indexError := by
    rw [initLoop]
    exact initLoopGo_infeasible 3 _ (by intro s hs; simp at hs; subst hs; norm_num)
      (by norm_num [sumX, EPS]) _ 0 0 0 (by simp [sumX])
  rw [hinit]

/-- Whenever the target width exceeds the curve's total width by at
least `EPS` (for a curve of nonnegative segment widths), `reorder_step`
fails with an `IndexError` from the initialisation loop running past the
end of the list — an unguarded runtime error, rather than an assertion. -/
theorem too_wide_target_index_error (sx sy : ℚ) (curve : List LineSegment)
    (hpos : ∀ s ∈ curve, 0 ≤ s.x) (hwide : sumX curve + EPS ≤ sx) :
    reorder_step sx sy curve = Except.error PyErr.indexError := by
  have hbase : ¬ |sumX curve - sx| < EPS := by
    rw [abs_sub_comm, abs_of_nonneg (by linarith [EPS_pos])]
    linarith
  have hinit : initLoop sx curve = Except.error PyErr.indexError := by
    rw [initLoop]
    exact initLoopGo_infeasible sx curve hpos hwide _ 0 0 0 (by simp [sumX])
  rw [reorder_step, if_neg hbase, hinit]

/-- Claim C5 (amended): invalid input to `reorder_step` is not reliably
detected.  First conjunct: whenever the target width exceeds the curve's
total width by at least `EPS` (for nonnegative segment widths), the call
fails with an unguarded `IndexError` from the initialisation loop — not
an assertion and not the explicit exhaustion error.  Remaining
conjuncts: the non-convex curve `nonConvexCurve` with target
`(1/2, 0)` passes the base case and both window-bound assertions and
silently returns a wrong answer — the found section has total width
`3/2`, not within `EPS` of the target `1/2` — with no error raised. -/
theorem invalid_input_failure_modes :
    (∀ (sx sy : ℚ) (curve : List LineSegment), (∀ s ∈ curve, 0 ≤ s.x) →
        sumX curve + EPS ≤ sx →
        reorder_step sx sy curve = Except.error PyErr.indexError) ∧
    reorder_step (1/2) 0 nonConvexCurve =
      Except.ok ([⟨1, 0, (0, 1/2)⟩, ⟨1/2, 0, (0, 1/4)⟩],
                 [⟨1/2, 0, (1/4, 1/2)⟩, ⟨1, -1, (1/2, 1)⟩]) ∧
    sumX [(⟨1, 0, (0, 1/2)⟩ : LineSegment), ⟨1/2, 0, (0, 1/4)⟩] = 3/2 ∧
    ¬ |(3/2 : ℚ) - 1/2| < EPS := by
  refine ⟨too_wide_target_index_error, ?_, by norm_num [sumX],
    by norm_num [EPS, abs_lt]⟩
  have hN0 : nthSeg nonConvexCurve 0 = ⟨1, 0, (0, 1/2)⟩ := rfl
  have hg : (0 < nonConvexCurve.length ∧ 0 < nonConvexCurve.length) := by
    norm_num [nonConvexCurve]
  have hbase : ¬ |sumX nonConvexCurve - 1/2| < EPS := by
    norm_num [sumX, nonConvexCurve, EPS, abs_lt]
  have hinit : initLoop (1/2) nonConvexCurve = Except.ok (0, 0, 0) :=
    initLoopGo_stop (1/2) nonConvexCurve _ 0 0 0 hg.1 (by rw [hN0]; norm_num)
  have hlen : 2 * nonConvexCurve.length + 1 = 5 := rfl
  have s1 := mainLoopGo_found (1/2) 0 nonConvexCurve 4 0 0 0 0 hg
    (by rw [hN0]; norm_num)
    (by rw [hN0]; norm_num)
    (by rw [hN0]; norm_num)
    (by rw [hN0]; norm_num [minYDiff, maxYDiff, minLPos, minRPos, maxLPos, maxRPos])
  norm_num at s1
  have hfr : foundRest (1/2) 0 nonConvexCurve 0 0 0 0 =
      ([⟨1, 0, (0, 1/2)⟩, ⟨1/2, 0, (0, 1/4)⟩],
       [⟨1/2, 0, (1/4, 1/2)⟩, ⟨1, -1, (1/2, 1)⟩]) := by
    norm_num [foundRest, nthSeg, List.getD, minYDiff, maxYDiff, minLPos, minRPos,
      maxLPos, maxRPos, LineSegment.split, pySlice, nonConvexCurve]
  rw [reorder_step, if_neg hbase, hinit]
  show mainLoopGo (1/2) 0 nonConvexCurve (2 * nonConvexCurve.length + 1) 0 0 0 0 = _
  rw [hlen, s1, hfr]

theorem invalid_input_failure_modes_witness :
    reorder_step 3 7 [(⟨1, 0, (0, 1/2)⟩ : LineSegment), ⟨1, 2, (1/2, 1)⟩] =
      Except.error PyErr.indexError :=
  invalid_input_failure_modes.1 3 7 _
    (by intro s hs; simp at hs; rcases hs with h | h <;> (subst h; norm_num))
    (by norm_num [sumX, EPS])

theorem mainLoopGo_exit (sx sy : ℚ) (curve : List LineSegment) (fuel l r : ℕ)
    (x y : ℚ) (hg : ¬(l < curve.length ∧ r < curve.length)) :
    mainLoopGo sx sy curve (fuel + 1) l r x y = Except.error PyErr.exception := by
  simp only [mainLoopGo]
  rw [if_neg hg]

theorem mainLoopGo_first_assert_fail (sx sy : ℚ) (curve : List LineSegment)
    (fuel l r : ℕ) (x y : ℚ) (hg : l < curve.length ∧ r < curve.length)
    (h1 : ¬(x - (nthSeg curve l).x < sx)) :
    mainLoopGo sx sy curve (fuel + 1) l r x y =
      Except.error PyErr.assertionError := by
  simp only [mainLoopGo]
  rw [if_pos hg, if_neg h1]

theorem mainLoopGo_second_assert_fail (sx sy : ℚ) (curve : List LineSegment)
    (fuel l r : ℕ) (x y : ℚ) (hg : l < curve.length ∧ r < curve.length)
    (h1 : x - (nthSeg curve l).x < sx)
    (h2 : ¬ sx ≤ x + (nthSeg curve r).x) :
    mainLoopGo sx sy curve (fuel + 1) l r x y =
      Except.error PyErr.assertionError := by
  simp only [mainLoopGo]
  rw [if_pos hg, if_pos h1, if_neg h2]

theorem mainLoopGo_no_div_zero (sx sy : ℚ) (curve : List LineSegment)
    (hpos : ∀ s ∈ curve, 0 < s.x) :
    ∀ fuel l r (x y : ℚ),
      mainLoopGo sx sy curve fuel l r x y ≠ Except.error PyErr.zeroDivisionError := by
  intro fuel
  induction fuel with
  | zero => intro l r x y; simp [mainLoopGo]
  | succ fuel ih =>
    intro l r x y
    by_cases hg : l < curve.length ∧ r < curve.length
    · have hz : ¬((nthSeg curve l).x = 0 ∨ (nthSeg curve r).x = 0) := by
        push_neg
        exact ⟨ne_of_gt (hpos _ (nthSeg_mem hg.1)), ne_of_gt (hpos _ (nthSeg_mem hg.2))⟩
      by_cases h1 : x - (nthSeg curve l).x < sx
      · by_cases h2 : sx ≤ x + (nthSeg curve r).x
        · by_cases hy : minYDiff sx x y (nthSeg curve l) (nthSeg curve r) ≤ sy ∧
              sy ≤ maxYDiff sx x y (nthSeg curve l) (nthSeg curve r)
          · rw [mainLoopGo_found sx sy curve fuel l r x y hg h1 h2 hz hy]
            simp
          · by_cases he : x - (nthSeg curve l).x + (nthSeg curve r).x = sx
            · rw [mainLoopGo_adv_both sx sy curve fuel l r x y hg h1 h2 hz hy he]
              exact ih _ _ _ _
            · by_cases hlt : x - (nthSeg curve l).x + (nthSeg curve r).x < sx
              · rw [mainLoopGo_adv_r sx sy curve fuel l r x y hg h1 h2 hz hy he hlt]
                exact ih _ _ _ _
              · rw [mainLoopGo_adv_l sx sy curve fuel l r x y hg h1 h2 hz hy he hlt]
                exact ih _ _ _ _
        · rw [mainLoopGo_second_assert_fail sx sy curve fuel l r x y hg h1 h2]
          simp
      · rw [mainLoopGo_first_assert_fail sx sy curve fuel l r x y hg h1]
        simp
    · rw [mainLoopGo_exit sx sy curve fuel l r x y hg]
      simp

theorem initLoopGo_error_eq (sx : ℚ) (curve : List LineSegment) :
    ∀ fuel r (x y : ℚ) e, initLoopGo sx curve fuel r x y = Except.error e →
      e = PyErr.indexError := by
  intro fuel
  induction fuel with
  | zero =>
    intro r x y e h
    simp only [initLoopGo, Except.error.injEq] at h
    exact h.symm
  | succ fuel ih =>
    intro r x y e h
    by_cases hr : r < curve.length
    · by_cases hc : x + (nthSeg curve r).x < sx
      · rw [initLoopGo_adv sx curve fuel r x y hr hc] at h
        exact ih _ _ _ _ h
      · rw [initLoopGo_stop sx curve fuel r x y hr hc] at h
        simp at h
    · rw [initLoopGo_oob sx curve fuel r x y hr] at h
      simp only [Except.error.injEq] at h
      exact h.symm

/-- Claim C10: if every segment of the curve has strictly positive width,
`reorder_step` never fails with a `ZeroDivisionError` (every division in
the general case has a nonzero divisor); and a curve containing a
zero-width segment reached at a window boundary does make the call fail
with a `ZeroDivisionError`, so strict positivity, not merely `dx ≥ 0`,
is required. -/
theorem reorder_step_no_division_by_zero :
    (∀ (sx sy : ℚ) (curve : List LineSegment), (∀ s ∈ curve, 0 < s.x) →
        reorder_step sx sy curve ≠ Except.error PyErr.zeroDivisionError) ∧
    reorder_step (1/2) 9 zeroWidthCurve = Except.error PyErr.zeroDivisionError := by
  constructor
  · intro sx sy curve hpos
    rw [reorder_step]
    by_cases hb : |sumX curve - sx| < EPS
    · rw [if_pos hb]
      by_cases hb2 : |sumY curve - sy| < EPS
      · rw [if_pos hb2]; simp
      · rw [if_neg hb2]; simp
    · rw [if_neg hb]
      cases hE : initLoop sx curve with
      | error e =>
        have he : e = PyErr.indexError :=
          initLoopGo_error_eq sx curve _ 0 0 0 e (by rw [initLoop] at hE; exact hE)
        subst he
        show Except.error PyErr.indexError ≠ Except.error PyErr.zeroDivisionError
        simp
      | ok v =>
        obtain ⟨r0, x0, y0⟩ := v
        show mainLoopGo sx sy curve (2 * curve.length + 1) 0 r0 x0 y0 ≠
          Except.error PyErr.zeroDivisionError
        exact mainLoopGo_no_div_zero sx sy curve hpos _ 0 r0 x0 y0
  · have hN0 : nthSeg zeroWidthCurve 0 = ⟨0, 1, (0, 1/2)⟩ := rfl
    have hN1 : nthSeg zeroWidthCurve 1 = ⟨1, 5, (1/2, 1)⟩ := rfl
    have hg : (0 < zeroWidthCurve.length ∧ 1 < zeroWidthCurve.length) := by
      norm_num [zeroWidthCurve]
    have hbase : ¬ |sumX zeroWidthCurve - 1/2| < EPS := by
      norm_num [sumX, zeroWidthCurve, EPS, abs_lt]
    have i1 : initLoop (1/2) zeroWidthCurve =
        initLoopGo (1/2) zeroWidthCurve zeroWidthCurve.length 1
          (0 + (nthSeg zeroWidthCurve 0).x) (0 + (nthSeg zeroWidthCurve 0).y) := by
      rw [initLoop]
      exact initLoopGo_adv _ _ _ _ _ _ hg.1 (by rw [hN0]; norm_num)
    rw [hN0] at i1
    norm_num at i1
    rw [show zeroWidthCurve.length = 2 from rfl] at i1
    have i2 : initLoopGo (1/2) zeroWidthCurve 2 1 0 1 = Except.ok (1, 0, 1) := by
      have h := initLoopGo_stop (1/2) zeroWidthCurve 1 1 0 1 hg.2 (by rw [hN1]; norm_num)
      norm_num at h
      exact h
    have hinit := i1.trans i2
    have m1 := mainLoopGo_div_zero (1/2) 9 zeroWidthCurve 4 0 1 0 1 hg
      (by rw [hN0]; norm_num) (by rw [hN1]; norm_num) (by rw [hN0]; norm_num)
    norm_num at m1
    rw [reorder_step, if_neg hbase, hinit]
    show mainLoopGo (1/2) 9 zeroWidthCurve (2 * zeroWidthCurve.length + 1) 0 1 0 1 = _
    rw [show 2 * zeroWidthCurve.length + 1 = 5 from rfl, m1]

theorem reorder_step_no_division_by_zero_witness :
    reorder_step 1 1 scenario2Curve ≠ Except.error PyErr.zeroDivisionError :=
  reorder_step_no_division_by_zero.1 1 1 scenario2Curve
    (by intro s hs; simp [scenario2Curve] at hs; rcases hs with h | h <;> (subst h; norm_num))

/-! ### One-iteration unfolding lemmas for the state trace -/

theorem iterStatesGo_oob (sx sy : ℚ) (curve : List LineSegment) (fuel l r : ℕ)
    (x y : ℚ) (hg : ¬(l < curve.length ∧ r < curve.length)) :
    iterStatesGo sx sy curve (fuel + 1) l r x y = [] := by
  simp only [iterStatesGo]
  rw [if_neg hg]

theorem iterStatesGo_first_assert_fail (sx sy : ℚ) (curve : List LineSegment)
    (fuel l r : ℕ) (x y : ℚ) (hg : l < curve.length ∧ r < curve.length)
    (h1 : ¬(x - (nthSeg curve l).x < sx)) :
    iterStatesGo sx sy curve (fuel + 1) l r x y = [(l, r, x, y)] := by
  simp only [iterStatesGo]
  rw [if_pos hg, if_neg h1]

theorem iterStatesGo_second_assert_fail (sx sy : ℚ) (curve : List LineSegment)
    (fuel l r : ℕ) (x y : ℚ) (hg : l < curve.length ∧ r < curve.length)
    (h1 : x - (nthSeg curve l).x < sx)
    (h2 : ¬ sx ≤ x + (nthSeg curve r).x) :
    iterStatesGo sx sy curve (fuel + 1) l r x y = [(l, r, x, y)] := by
  simp only [iterStatesGo]
  rw [if_pos hg, if_pos h1, if_neg h2]

theorem iterStatesGo_div_zero (sx sy : ℚ) (curve : List LineSegment)
    (fuel l r : ℕ) (x y : ℚ) (hg : l < curve.length ∧ r < curve.length)
    (h1 : x - (nthSeg curve l).x < sx)
    (h2 : sx ≤ x + (nthSeg curve r).x)
    (hz : (nthSeg curve l).x = 0 ∨ (nthSeg curve r).x = 0) :
    iterStatesGo sx sy curve (fuel + 1) l r x y = [(l, r, x, y)] := by
  simp only [iterStatesGo]
  rw [if_pos hg, if_pos h1, if_pos h2, if_pos hz]

theorem iterStatesGo_found (sx sy : ℚ) (curve : List LineSegment)
    (fuel l r : ℕ) (x y : ℚ) (hg : l < curve.length ∧ r < curve.length)
    (h1 : x - (nthSeg curve l).x < sx)
    (h2 : sx ≤ x + (nthSeg curve r).x)
    (hz : ¬((nthSeg curve l).x = 0 ∨ (nthSeg curve r).x = 0))
    (hy : minYDiff sx x y (nthSeg curve l) (nthSeg curve r) ≤ sy ∧
          sy ≤ maxYDiff sx x y (nthSeg curve l) (nthSeg curve r)) :
    iterStatesGo sx sy curve (fuel + 1) l r x y = [(l, r, x, y)] := by
  simp only [iterStatesGo]
  rw [if_pos hg, if_pos h1, if_pos h2, if_neg hz, if_pos hy]

theorem iterStatesGo_adv_both (sx sy : ℚ) (curve : List LineSegment)
    (fuel l r : ℕ) (x y : ℚ) (hg : l < curve.length ∧ r < curve.length)
    (h1 : x - (nthSeg curve l).x < sx)
    (h2 : sx ≤ x + (nthSeg curve r).x)
    (hz : ¬((nthSeg curve l).x = 0 ∨ (nthSeg curve r).x = 0))
    (hy : ¬(minYDiff sx x y (nthSeg curve l) (nthSeg curve r) ≤ sy ∧
            sy ≤ maxYDiff sx x y (nthSeg curve l) (nthSeg curve r)))
    (he : x - (nthSeg curve l).x + (nthSeg curve r).x = sx) :
    iterStatesGo sx sy curve (fuel + 1) l r x y =
      (l, r, x, y) :: iterStatesGo sx sy curve fuel (l + 1) (r + 1)
        (x + (nthSeg curve r).x - (nthSeg curve l).x)
        (y + (nthSeg curve r).y - (nthSeg curve l).y) := by
  simp only [iterStatesGo]
  rw [if_pos hg, if_pos h1, if_pos h2, if_neg hz, if_neg hy, if_pos he]

theorem iterStatesGo_adv_r (sx sy : ℚ) (curve : List LineSegment)
    (fuel l r : ℕ) (x y : ℚ) (hg : l < curve.length ∧ r < curve.length)
    (h1 : x - (nthSeg curve l).x < sx)
    (h2 : sx ≤ x + (nthSeg curve r).x)
    (hz : ¬((nthSeg curve l).x = 0 ∨ (nthSeg curve r).x = 0))
    (hy : ¬(minYDiff sx x y (nthSeg curve l) (nthSeg curve r) ≤ sy ∧
            sy ≤ maxYDiff sx x y (nthSeg curve l) (nthSeg curve r)))
    (he : ¬(x - (nthSeg curve l).x + (nthSeg curve r).x = sx))
    (hlt : x - (nthSeg curve l).x + (nthSeg curve r).x < sx) :
    iterStatesGo sx sy curve (fuel + 1) l r x y =
      (l, r, x, y) :: iterStatesGo sx sy curve fuel l (r + 1)
        (x + (nthSeg curve r).x) (y + (nthSeg curve r).y) := by
  simp only [iterStatesGo]
  rw [if_pos hg, if_pos h1, if_pos h2, if_neg hz, if_neg hy, if_neg he, if_pos hlt]

theorem iterStatesGo_adv_l (sx sy : ℚ) (curve : List LineSegment)
    (fuel l r : ℕ) (x y : ℚ) (hg : l < curve.length ∧ r < curve.length)
    (h1 : x - (nthSeg curve l).x < sx)
    (h2 : sx ≤ x + (nthSeg curve r).x)
    (hz : ¬((nthSeg curve l).x = 0 ∨ (nthSeg curve r).x = 0))
    (hy : ¬(minYDiff sx x y (nthSeg curve l) (nthSeg curve r) ≤ sy ∧
            sy ≤ maxYDiff sx x y (nthSeg curve l) (nthSeg curve r)))
    (he : ¬(x - (nthSeg curve l).x + (nthSeg curve r).x = sx))
    (hlt : ¬(x - (nthSeg curve l).x + (nthSeg curve r).x < sx)) :
    iterStatesGo sx sy curve (fuel + 1) l r x y =
      (l, r, x, y) :: iterStatesGo sx sy curve fuel (l + 1) r
        (x - (nthSeg curve l).x) (y - (nthSeg curve l).y) := by
  simp only [iterStatesGo]
  rw [if_pos hg, if_pos h1, if_pos h2, if_neg hz, if_neg hy, if_neg he, if_neg hlt]

theorem iterStatesGo_length_le (sx sy : ℚ) (curve : List LineSegment) :
    ∀ fuel l r (x y : ℚ),
      (iterStatesGo sx sy curve fuel l r x y).length ≤
        (curve.length - l) + (curve.length - r) := by
  intro fuel
  induction fuel with
  | zero => intro l r x y; simp [iterStatesGo]
  | succ fuel ih =>
    intro l r x y
    by_cases hg : l < curve.length ∧ r < curve.length
    · by_cases h1 : x - (nthSeg curve l).x < sx
      · by_cases h2 : sx ≤ x + (nthSeg curve r).x
        · by_cases hz : (nthSeg curve l).x = 0 ∨ (nthSeg curve r).x = 0
          · rw [iterStatesGo_div_zero sx sy curve fuel l r x y hg h1 h2 hz]
            simp only [List.length_singleton]
            omega
          · by_cases hy : minYDiff sx x y (nthSeg curve l) (nthSeg curve r) ≤ sy ∧
                sy ≤ maxYDiff sx x y (nthSeg curve l) (nthSeg curve r)
            · rw [iterStatesGo_found sx sy curve fuel l r x y hg h1 h2 hz hy]
              simp only [List.length_singleton]
              omega
            · by_cases he : x - (nthSeg curve l).x + (nthSeg curve r).x = sx
              · rw [iterStatesGo_adv_both sx sy curve fuel l r x y hg h1 h2 hz hy he]
                have h := ih (l + 1) (r + 1)
                  (x + (nthSeg curve r).x - (nthSeg curve l).x)
                  (y + (nthSeg curve r).y - (nthSeg curve l).y)
                simp only [List.length_cons]
                omega
              · by_cases hlt : x - (nthSeg curve l).x + (nthSeg curve r).x < sx
                · rw [iterStatesGo_adv_r sx sy curve fuel l r x y hg h1 h2 hz hy he hlt]
                  have h := ih l (r + 1) (x + (nthSeg curve r).x) (y + (nthSeg curve r).y)
                  simp only [List.length_cons]
                  omega
                · rw [iterStatesGo_adv_l sx sy curve fuel l r x y hg h1 h2 hz hy he hlt]
                  have h := ih (l + 1) r (x - (nthSeg curve l).x) (y - (nthSeg curve l).y)
                  simp only [List.length_cons]
                  omega
        · rw [iterStatesGo_second_assert_fail sx sy curve fuel l r x y hg h1 h2]
          simp only [List.length_singleton]
          omega
      · rw [iterStatesGo_first_assert_fail sx sy curve fuel l r x y hg h1]
        simp only [List.length_singleton]
        omega
    · rw [iterStatesGo_oob sx sy curve fuel l r x y hg]
      simp

/-- Claim C6 (amended): every call of `reorder_step` terminates; each
main-loop iteration either returns, fails, or strictly advances at least
one of the two pointers, and each pointer ranges over the curve's
indices, so the number of main-loop iterations is bounded by twice the
number of segments of the input curve (not by the number of segments). -/
theorem iterations_le_twice_segment_count (sx sy : ℚ) (curve : List LineSegment) :
    (reorderStates sx sy curve).length ≤ 2 * curve.length := by
  rw [reorderStates]
  by_cases hb : |sumX curve - sx| < EPS
  · rw [if_pos hb]
    simp
  · rw [if_neg hb]
    cases hE : initLoop sx curve with
    | error e =>
      show (List.length ([] : List (ℕ × ℕ × ℚ × ℚ))) ≤ 2 * curve.length
      simp
    | ok v =>
      obtain ⟨r0, x0, y0⟩ := v
      show (iterStatesGo sx sy curve (2 * curve.length + 1) 0 r0 x0 y0).length ≤
        2 * curve.length
      have h := iterStatesGo_length_le sx sy curve (2 * curve.length + 1) 0 r0 x0 y0
      omega

theorem initLoopGo_ok_inv (sx : ℚ) (curve : List LineSegment) :
    ∀ fuel r (x y : ℚ), x = sumX (curve.take r) → y = sumY (curve.take r) →
      ∀ r' (x' y' : ℚ), initLoopGo sx curve fuel r x y = Except.ok (r', x', y') →
        x' = sumX (curve.take r') ∧ y' = sumY (curve.take r') := by
  intro fuel
  induction fuel with
  | zero => intro r x y _ _ r' x' y' h; simp [initLoopGo] at h
  | succ fuel ih =>
    intro r x y hx hy r' x' y' h
    by_cases hr : r < curve.length
    · by_cases hc : x + (nthSeg curve r).x < sx
      · rw [initLoopGo_adv sx curve fuel r x y hr hc] at h
        exact ih (r + 1) _ _ (by rw [hx, sumX_take_succ hr])
          (by rw [hy, sumY_take_succ hr]) r' x' y' h
      · rw [initLoopGo_stop sx curve fuel r x y hr hc] at h
        simp only [Except.ok.injEq, Prod.mk.injEq] at h
        obtain ⟨h1, h2, h3⟩ := h
        subst h1
        subst h2
        subst h3
        exact ⟨hx, hy⟩
    · rw [initLoopGo_oob sx curve fuel r x y hr] at h
      simp at h

theorem iterStatesGo_inv (sx sy : ℚ) (curve : List LineSegment) (hsx : 0 ≤ sx) :
    ∀ fuel l r (x y : ℚ), l ≤ r →
      x = sumX (curve.take r) - sumX (curve.take l) →
      y = sumY (curve.take r) - sumY (curve.take l) →
      ∀ a b (u v : ℚ), (a, b, u, v) ∈ iterStatesGo sx sy curve fuel l r x y →
        a ≤ b ∧ u = sumX (curve.take b) - sumX (curve.take a) ∧
          v = sumY (curve.take b) - sumY (curve.take a) := by
  intro fuel
  induction fuel with
  | zero => intro l r x y _ _ _ a b u v h; simp [iterStatesGo] at h
  | succ fuel ih =>
    intro l r x y hlr hx hy a b u v hmem
    by_cases hg : l < curve.length ∧ r < curve.length
    · by_cases h1 : x - (nthSeg curve l).x < sx
      · by_cases h2 : sx ≤ x + (nthSeg curve r).x
        · by_cases hz : (nthSeg curve l).x = 0 ∨ (nthSeg curve r).x = 0
          · rw [iterStatesGo_div_zero sx sy curve fuel l r x y hg h1 h2 hz] at hmem
            simp only [List.mem_singleton, Prod.mk.injEq] at hmem
            obtain ⟨ha, hb2, hu, hv⟩ := hmem
            subst ha; subst hb2; subst hu; subst hv
            exact ⟨hlr, hx, hy⟩
          · by_cases hyd : minYDiff sx x y (nthSeg curve l) (nthSeg curve r) ≤ sy ∧
                sy ≤ maxYDiff sx x y (nthSeg curve l) (nthSeg curve r)
            · rw [iterStatesGo_found sx sy curve fuel l r x y hg h1 h2 hz hyd] at hmem
              simp only [List.mem_singleton, Prod.mk.injEq] at hmem
              obtain ⟨ha, hb2, hu, hv⟩ := hmem
              subst ha; subst hb2; subst hu; subst hv
              exact ⟨hlr, hx, hy⟩
            · by_cases he : x - (nthSeg curve l).x + (nthSeg curve r).x = sx
              · rw [iterStatesGo_adv_both sx sy curve fuel l r x y hg h1 h2 hz hyd he] at hmem
                rcases List.mem_cons.mp hmem with hhd | htl
                · simp only [Prod.mk.injEq] at hhd
                  obtain ⟨ha, hb2, hu, hv⟩ := hhd
                  subst ha; subst hb2; subst hu; subst hv
                  exact ⟨hlr, hx, hy⟩
                · exact ih (l + 1) (r + 1) _ _ (by omega)
                    (by rw [sumX_take_succ hg.1, sumX_take_succ hg.2, hx]; ring)
                    (by rw [sumY_take_succ hg.1, sumY_take_succ hg.2, hy]; ring)
                    a b u v htl
              · by_cases hlt : x - (nthSeg curve l).x + (nthSeg curve r).x < sx
                · rw [iterStatesGo_adv_r sx sy curve fuel l r x y hg h1 h2 hz hyd he hlt] at hmem
                  rcases List.mem_cons.mp hmem with hhd | htl
                  · simp only [Prod.mk.injEq] at hhd
                    obtain ⟨ha, hb2, hu, hv⟩ := hhd
                    subst ha; subst hb2; subst hu; subst hv
                    exact ⟨hlr, hx, hy⟩
                  · exact ih l (r + 1) _ _ (by omega)
                      (by rw [sumX_take_succ hg.2, hx]; ring)
                      (by rw [sumY_take_succ hg.2, hy]; ring)
                      a b u v htl
                · rw [iterStatesGo_adv_l sx sy curve fuel l r x y hg h1 h2 hz hyd he hlt] at hmem
                  have hlr2 : l < r := by
                    rcases Nat.lt_or_ge l r with hc | hc
                    · exact hc
                    · exfalso
                      have hEq : l = r := le_antisymm hlr hc
                      subst hEq
                      have h0 : x - (nthSeg curve l).x + (nthSeg curve l).x = 0 := by
                        rw [hx]; ring
                      rcases lt_or_eq_of_le hsx with hpos | heq
                      · exact hlt (by rw [h0]; exact hpos)
                      · exact he (by rw [h0, ← heq])
                  rcases List.mem_cons.mp hmem with hhd | htl
                  · simp only [Prod.mk.injEq] at hhd
                    obtain ⟨ha, hb2, hu, hv⟩ := hhd
                    subst ha; subst hb2; subst hu; subst hv
                    exact ⟨hlr, hx, hy⟩
                  · exact ih (l + 1) r _ _ (by omega)
                      (by rw [sumX_take_succ hg.1, hx]; ring)
                      (by rw [sumY_take_succ hg.1, hy]; ring)
                      a b u v htl
        · rw [iterStatesGo_second_assert_fail sx sy curve fuel l r x y hg h1 h2] at hmem
          simp only [List.mem_singleton, Prod.mk.injEq] at hmem
          obtain ⟨ha, hb2, hu, hv⟩ := hmem
          subst ha; subst hb2; subst hu; subst hv
          exact ⟨hlr, hx, hy⟩
      · rw [iterStatesGo_first_assert_fail sx sy curve fuel l r x y hg h1] at hmem
        simp only [List.mem_singleton, Prod.mk.injEq] at hmem
        obtain ⟨ha, hb2, hu, hv⟩ := hmem
        subst ha; subst hb2; subst hu; subst hv
        exact ⟨hlr, hx, hy⟩
    · rw [iterStatesGo_oob sx sy curve fuel l r x y hg] at hmem
      simp at hmem

/-- Claim C4 (amended): at the start of every main-loop iteration the
running sums `(x_lleft_rleft, y_lleft_rleft)` equal the componentwise
sums over the slice `curve[l:r]` — the segments from `l` inclusive to
`r` exclusive, not the segments strictly between the two pointers — and
`l ≤ r` (given a nonnegative target width); the two assertions check
that this sum minus `curve[l].x` is `< target_x` and that this sum plus
`curve[r].x` is `≥ target_x`. -/
theorem running_sum_inclusive_inv (sx sy : ℚ) (curve : List LineSegment)
    (hsx : 0 ≤ sx) (l r : ℕ) (x y : ℚ)
    (hmem : (l, r, x, y) ∈ reorderStates sx sy curve) :
    l ≤ r ∧ x = sumX (pySlice curve l r) ∧ y = sumY (pySlice curve l r) := by
  rw [reorderStates] at hmem
  by_cases hb : |sumX curve - sx| < EPS
  · rw [if_pos hb] at hmem
    simp at hmem
  · rw [if_neg hb] at hmem
    cases hE : initLoop sx curve with
    | error e =>
      rw [hE] at hmem
      simp at hmem
    | ok v =>
      obtain ⟨r0, x0, y0⟩ := v
      rw [hE] at hmem
      have hmem2 : (l, r, x, y) ∈
          iterStatesGo sx sy curve (2 * curve.length + 1) 0 r0 x0 y0 := hmem
      have h0 := initLoopGo_ok_inv sx curve _ 0 0 0 (by simp [sumX]) (by simp [sumY])
        r0 x0 y0 (by rw [initLoop] at hE; exact hE)
      have hmain := iterStatesGo_inv sx sy curve hsx _ 0 r0 x0 y0 (Nat.zero_le _)
        (by simpa [sumX] using h0.1)
        (by simpa [sumY] using h0.2)
        l r x y hmem2
      exact ⟨hmain.1, by rw [sumX_pySlice curve hmain.1]; exact hmain.2.1,
             by rw [sumY_pySlice curve hmain.1]; exact hmain.2.2⟩

theorem rampCurve_first_state :
    reorderStates (3/2) 10 rampCurve = (0, 1, (1:ℚ), (0:ℚ)) ::
      iterStatesGo (3/2) 10 rampCurve (2 * rampCurve.length) 0 2 2 1 := by
  have hN0 : nthSeg rampCurve 0 = ⟨1, 0, (0, 1/3)⟩ := rfl
  have hN1 : nthSeg rampCurve 1 = ⟨1, 1, (1/3, 2/3)⟩ := rfl
  have hbase : ¬ |sumX rampCurve - 3/2| < EPS := by
    norm_num [sumX, rampCurve, EPS, abs_lt]
  have i1 : initLoop (3/2) rampCurve =
      initLoopGo (3/2) rampCurve rampCurve.length 1
        (0 + (nthSeg rampCurve 0).x) (0 + (nthSeg rampCurve 0).y) := by
    rw [initLoop]
    exact initLoopGo_adv _ _ _ _ _ _ (by norm_num [rampCurve]) (by rw [hN0]; norm_num)
  rw [hN0] at i1
  norm_num at i1
  rw [show rampCurve.length = 3 from rfl] at i1
  have i2 : initLoopGo (3/2) rampCurve 3 1 1 0 = Except.ok (1, 1, 0) := by
    have h := initLoopGo_stop (3/2) rampCurve 2 1 1 0 (by norm_num [rampCurve])
      (by rw [hN1]; norm_num)
    norm_num at h
    exact h
  have hinit := i1.trans i2
  rw [reorderStates, if_neg hbase, hinit]
  show iterStatesGo (3/2) 10 rampCurve (2 * rampCurve.length + 1) 0 1 1 0 = _
  have hstep := iterStatesGo_adv_r (3/2) 10 rampCurve (2 * rampCurve.length) 0 1 1 0
    (by norm_num [rampCurve])
    (by rw [hN0]; norm_num)
    (by rw [hN1]; norm_num)
    (by rw [hN0, hN1]; norm_num)
    (by rw [hN0, hN1]; norm_num [minYDiff, maxYDiff, minLPos, minRPos, maxLPos, maxRPos])
    (by rw [hN0, hN1]; norm_num)
    (by rw [hN0, hN1]; norm_num)
  rw [hN1] at hstep
  norm_num at hstep
  exact hstep

/-- Claim C4 (counterexample): in the call `reorder_step(1.5, 10, rampCurve)`
with the convex curve `rampCurve` (widths 1, slopes 0, 1, 10), the first
main-loop iteration starts at `(l, r) = (0, 1)` with running sum
`(x, y) = (1, 0)` — the sum over `curve[0:1]`, which contains segment
`l` — while the sum over the segments strictly between the two pointers
is `0`, so `x` is not that strictly-between core, and that core plus
`curve[r].x` equals `1 < 1.5`: the property the claim states for the
exclusive core is violated at an iteration start the run passes through. -/
theorem running_sum_strictly_between_refuted :
    ((0, 1, (1:ℚ), (0:ℚ)) ∈ reorderStates (3/2) 10 rampCurve) ∧
    ¬ (3/2 ≤ sumX (pySlice rampCurve (0+1) 1) + (nthSeg rampCurve 1).x) ∧
    (1 : ℚ) ≠ sumX (pySlice rampCurve (0+1) 1) := by
  refine ⟨?_, ?_, ?_⟩
  · rw [rampCurve_first_state]
    exact List.mem_cons_self _ _
  · norm_num [pySlice, sumX, nthSeg, rampCurve, List.getD]
  · norm_num [pySlice, sumX]

theorem running_sum_inclusive_inv_witness :
    (0 : ℕ) ≤ 1 ∧ (1 : ℚ) = sumX (pySlice rampCurve 0 1) ∧
      (0 : ℚ) = sumY (pySlice rampCurve 0 1) :=
  running_sum_inclusive_inv (3/2) 10 rampCurve (by norm_num) 0 1 1 0
    (by rw [rampCurve_first_state]; exact List.mem_cons_self _ _)

/-- Claim C6 (counterexample): the valid call
`reorder_step(1.5, 101, stairCurve)` on the four-segment convex curve
`stairCurve` succeeds, and its main loop runs for five iterations —
more than the number of segments of the input curve. -/
theorem iterations_exceed_segment_count :
    (reorderStates (3/2) 101 stairCurve).length = 5 ∧
    stairCurve.length = 4 ∧
    reorder_step (3/2) 101 stairCurve =
      Except.ok ([⟨1/2, 1, (5/8, 3/4)⟩, ⟨1, 100, (3/4, 1)⟩],
                 [⟨1, 0, (0, 1/4)⟩, ⟨1, 1, (1/4, 1/2)⟩, ⟨1/2, 1, (1/2, 5/8)⟩]) := by
  have hN0 : nthSeg stairCurve 0 = ⟨1, 0, (0, 1/4)⟩ := rfl
  have hN1 : nthSeg stairCurve 1 = ⟨1, 1, (1/4, 1/2)⟩ := rfl
  have hN2 : nthSeg stairCurve 2 = ⟨1, 2, (1/2, 3/4)⟩ := rfl
  have hN3 : nthSeg stairCurve 3 = ⟨1, 100, (3/4, 1)⟩ := rfl
  have hbase : ¬ |sumX stairCurve - 3/2| < EPS := by
    norm_num [sumX, stairCurve, EPS, abs_lt]
  have i1 : initLoop (3/2) stairCurve =
      initLoopGo (3/2) stairCurve stairCurve.length 1
        (0 + (nthSeg stairCurve 0).x) (0 + (nthSeg stairCurve 0).y) := by
    rw [initLoop]
    exact initLoopGo_adv _ _ _ _ _ _ (by norm_num [stairCurve]) (by rw [hN0]; norm_num)
  rw [hN0] at i1
  norm_num at i1
  rw [show stairCurve.length = 4 from rfl] at i1
  have i2 : initLoopGo (3/2) stairCurve 4 1 1 0 = Except.ok (1, 1, 0) := by
    have h := initLoopGo_stop (3/2) stairCurve 3 1 1 0 (by norm_num [stairCurve])
      (by rw [hN1]; norm_num)
    norm_num at h
    exact h
  have hinit := i1.trans i2
  have g1 : (0 < stairCurve.length ∧ 1 < stairCurve.length) := by norm_num [stairCurve]
  have a1 : (1:ℚ) - (nthSeg stairCurve 0).x < 3/2 := by rw [hN0]; norm_num
  have b1 : (3:ℚ)/2 ≤ 1 + (nthSeg stairCurve 1).x := by rw [hN1]; norm_num
  have z1 : ¬((nthSeg stairCurve 0).x = 0 ∨ (nthSeg stairCurve 1).x = 0) := by
    rw [hN0, hN1]; norm_num
  have y1 : ¬(minYDiff (3/2) 1 0 (nthSeg stairCurve 0) (nthSeg stairCurve 1) ≤ 101 ∧
      (101:ℚ) ≤ maxYDiff (3/2) 1 0 (nthSeg stairCurve 0) (nthSeg stairCurve 1)) := by
    rw [hN0, hN1]
    norm_num [minYDiff, maxYDiff, minLPos, minRPos, maxLPos, maxRPos]
  have e1 : ¬((1:ℚ) - (nthSeg stairCurve 0).x + (nthSeg stairCurve 1).x = 3/2) := by
    rw [hN0, hN1]; norm_num
  have w1 : (1:ℚ) - (nthSeg stairCurve 0).x + (nthSeg stairCurve 1).x < 3/2 := by
    rw [hN0, hN1]; norm_num
  have m1 := mainLoopGo_adv_r (3/2) 101 stairCurve 8 0 1 1 0 g1 a1 b1 z1 y1 e1 w1
  have t1 := iterStatesGo_adv_r (3/2) 101 stairCurve 8 0 1 1 0 g1 a1 b1 z1 y1 e1 w1
  rw [hN1] at m1 t1
  norm_num at m1 t1
  have g2 : (0 < stairCurve.length ∧ 2 < stairCurve.length) := by norm_num [stairCurve]
  have a2 : (2:ℚ) - (nthSeg stairCurve 0).x < 3/2 := by rw [hN0]; norm_num
  have b2 : (3:ℚ)/2 ≤ 2 + (nthSeg stairCurve 2).x := by rw [hN2]; norm_num
  have z2 : ¬((nthSeg stairCurve 0).x = 0 ∨ (nthSeg stairCurve 2).x = 0) := by
    rw [hN0, hN2]; norm_num
  have y2 : ¬(minYDiff (3/2) 2 1 (nthSeg stairCurve 0) (nthSeg stairCurve 2) ≤ 101 ∧
      (101:ℚ) ≤ maxYDiff (3/2) 2 1 (nthSeg stairCurve 0) (nthSeg stairCurve 2)) := by
    rw [hN0, hN2]
    norm_num [minYDiff, maxYDiff, minLPos, minRPos, maxLPos, maxRPos]
  have e2 : ¬((2:ℚ) - (nthSeg stairCurve 0).x + (nthSeg stairCurve 2).x = 3/2) := by
    rw [hN0, hN2]; norm_num
  have w2 : ¬((2:ℚ) - (nthSeg stairCurve 0).x + (nthSeg stairCurve 2).x < 3/2) := by
    rw [hN0, hN2]; norm_num
  have m2 := mainLoopGo_adv_l (3/2) 101 stairCurve 7 0 2 2 1 g2 a2 b2 z2 y2 e2 w2
  have t2 := iterStatesGo_adv_l (3/2) 101 stairCurve 7 0 2 2 1 g2 a2 b2 z2 y2 e2 w2
  rw [hN0] at m2 t2
  norm_num at m2 t2
  have g3 : (1 < stairCurve.length ∧ 2 < stairCurve.length) := by norm_num [stairCurve]
  have a3 : (1:ℚ) - (nthSeg stairCurve 1).x < 3/2 := by rw [hN1]; norm_num
  have b3 : (3:ℚ)/2 ≤ 1 + (nthSeg stairCurve 2).x := by rw [hN2]; norm_num
  have z3 : ¬((nthSeg stairCurve 1).x = 0 ∨ (nthSeg stairCurve 2).x = 0) := by
    rw [hN1, hN2]; norm_num
  have y3 : ¬(minYDiff (3/2) 1 1 (nthSeg stairCurve 1) (nthSeg stairCurve 2) ≤ 101 ∧
      (101:ℚ) ≤ maxYDiff (3/2) 1 1 (nthSeg stairCurve 1) (nthSeg stairCurve 2)) := by
    rw [hN1, hN2]
    norm_num [minYDiff, maxYDiff, minLPos, minRPos, maxLPos, maxRPos]
  have e3 : ¬((1:ℚ) - (nthSeg stairCurve 1).x + (nthSeg stairCurve 2).x = 3/2) := by
    rw [hN1, hN2]; norm_num
  have w3 : (1:ℚ) - (nthSeg stairCurve 1).x + (nthSeg stairCurve 2).x < 3/2 := by
    rw [hN1, hN2]; norm_num
  have m3 := mainLoopGo_adv_r (3/2) 101 stairCurve 6 1 2 1 1 g3 a3 b3 z3 y3 e3 w3
  have t3 := iterStatesGo_adv_r (3/2) 101 stairCurve 6 1 2 1 1 g3 a3 b3 z3 y3 e3 w3
  rw [hN2] at m3 t3
  norm_num at m3 t3
  have g4 : (1 < stairCurve.length ∧ 3 < stairCurve.length) := by norm_num [stairCurve]
  have a4 : (2:ℚ) - (nthSeg stairCurve 1).x < 3/2 := by rw [hN1]; norm_num
  have b4 : (3:ℚ)/2 ≤ 2 + (nthSeg stairCurve 3).x := by rw [hN3]; norm_num
  have z4 : ¬((nthSeg stairCurve 1).x = 0 ∨ (nthSeg stairCurve 3).x = 0) := by
    rw [hN1, hN3]; norm_num
  have y4 : ¬(minYDiff (3/2) 2 3 (nthSeg stairCurve 1) (nthSeg stairCurve 3) ≤ 101 ∧
      (101:ℚ) ≤ maxYDiff (3/2) 2 3 (nthSeg stairCurve 1) (nthSeg stairCurve 3)) := by
    rw [hN1, hN3]
    norm_num [minYDiff, maxYDiff, minLPos, minRPos, maxLPos, maxRPos]
  have e4 : ¬((2:ℚ) - (nthSeg stairCurve 1).x + (nthSeg stairCurve 3).x = 3/2) := by
    rw [hN1, hN3]; norm_num
  have w4 : ¬((2:ℚ) - (nthSeg stairCurve 1).x + (nthSeg stairCurve 3).x < 3/2) := by
    rw [hN1, hN3]; norm_num
  have m4 := mainLoopGo_adv_l (3/2) 101 stairCurve 5 1 3 2 3 g4 a4 b4 z4 y4 e4 w4
  have t4 := iterStatesGo_adv_l (3/2) 101 stairCurve 5 1 3 2 3 g4 a4 b4 z4 y4 e4 w4
  rw [hN1] at m4 t4
  norm_num at m4 t4
  have g5 : (2 < stairCurve.length ∧ 3 < stairCurve.length) := by norm_num [stairCurve]
  have a5 : (1:ℚ) - (nthSeg stairCurve 2).x < 3/2 := by rw [hN2]; norm_num
  have b5 : (3:ℚ)/2 ≤ 1 + (nthSeg stairCurve 3).x := by rw [hN3]; norm_num
  have z5 : ¬((nthSeg stairCurve 2).x = 0 ∨ (nthSeg stairCurve 3).x = 0) := by
    rw [hN2, hN3]; norm_num
  have y5 : (minYDiff (3/2) 1 2 (nthSeg stairCurve 2) (nthSeg stairCurve 3) ≤ 101 ∧
      (101:ℚ) ≤ maxYDiff (3/2) 1 2 (nthSeg stairCurve 2) (nthSeg stairCurve 3)) := by
    rw [hN2, hN3]
    norm_num [minYDiff, maxYDiff, minLPos, minRPos, maxLPos, maxRPos]
  have m5 := mainLoopGo_found (3/2) 101 stairCurve 4 2 3 1 2 g5 a5 b5 z5 y5
  have t5 := iterStatesGo_found (3/2) 101 stairCurve 4 2 3 1 2 g5 a5 b5 z5 y5
  norm_num at m5 t5
  have hfr : foundRest (3/2) 101 stairCurve 2 3 1 2 =
      ([⟨1/2, 1, (5/8, 3/4)⟩, ⟨1, 100, (3/4, 1)⟩],
       [⟨1, 0, (0, 1/4)⟩, ⟨1, 1, (1/4, 1/2)⟩, ⟨1/2, 1, (1/2, 5/8)⟩]) := by
    norm_num [foundRest, nthSeg, List.getD, minYDiff, maxYDiff, minLPos, minRPos,
      maxLPos, maxRPos, LineSegment.split, pySlice, stairCurve]
  refine ⟨?_, rfl, ?_⟩
  · rw [reorderStates, if_neg hbase, hinit]
    show (iterStatesGo (3/2) 101 stairCurve (2 * stairCurve.length + 1) 0 1 1 0).length = 5
    rw [show 2 * stairCurve.length + 1 = 9 from rfl]
    rw [t1, t2, t3, t4, t5]
    rfl
  · rw [reorder_step, if_neg hbase, hinit]
    show mainLoopGo (3/2) 101 stairCurve (2 * stairCurve.length + 1) 0 1 1 0 = _
    rw [show 2 * stairCurve.length + 1 = 9 from rfl]
    rw [m1, m2, m3, m4, m5, hfr]

/-! ### `to_tikz` lemmas -/

theorem sqrtCeilAux_le (q : ℚ) : ∀ fuel n, n ≤ sqrtCeilAux q fuel n := by
  intro fuel
  induction fuel with
  | zero => intro n; simp [sqrtCeilAux]
  | succ fuel ih =>
    intro n
    simp only [sqrtCeilAux]
    by_cases h : q ≤ (n : ℚ) ^ 2
    · rw [if_pos h]
    · rw [if_neg h]
      exact le_trans (Nat.le_succ n) (ih (n + 1))

theorem sqrtCeilAux_upper (q : ℚ) :
    ∀ fuel n, q ≤ (((n + fuel : ℕ)) : ℚ) ^ 2 →
      q ≤ ((sqrtCeilAux q fuel n : ℕ) : ℚ) ^ 2 := by
  intro fuel
  induction fuel with
  | zero => intro n h; simpa [sqrtCeilAux] using h
  | succ fuel ih =>
    intro n h
    simp only [sqrtCeilAux]
    by_cases hc : q ≤ (n : ℚ) ^ 2
    · rw [if_pos hc]
      exact hc
    · rw [if_neg hc]
      exact ih (n + 1) (by rw [show n + 1 + fuel = n + (fuel + 1) from by omega]; exact h)

theorem sqrtCeilAux_min (q : ℚ) :
    ∀ fuel n, (∀ k : ℕ, k < n → ¬ q ≤ (k : ℚ) ^ 2) →
      ∀ m : ℕ, q ≤ (m : ℚ) ^ 2 → sqrtCeilAux q fuel n ≤ m := by
  intro fuel
  induction fuel with
  | zero =>
    intro n hbelow m hm
    simp only [sqrtCeilAux]
    by_contra hcon
    push_neg at hcon
    exact hbelow m hcon hm
  | succ fuel ih =>
    intro n hbelow m hm
    simp only [sqrtCeilAux]
    by_cases hc : q ≤ (n : ℚ) ^ 2
    · rw [if_pos hc]
      by_contra hcon
      push_neg at hcon
      exact hbelow m hcon hm
    · rw [if_neg hc]
      refine ih (n + 1) ?_ m hm
      intro k hk
      rcases Nat.lt_or_ge k n with h | h
      · exact hbelow k h
      · have hkn : k = n := by omega
        subst hkn
        exact hc

/-- `sqrtCeil q` really is the least natural `n` with `q ≤ n ^ 2`, i.e.
the ceiling of the square root of `q`. -/
theorem sqrtCeil_isLeast (q : ℚ) :
    q ≤ ((sqrtCeil q : ℕ) : ℚ) ^ 2 ∧
    ∀ m : ℕ, q ≤ (m : ℚ) ^ 2 → sqrtCeil q ≤ m := by
  constructor
  · apply sqrtCeilAux_upper
    rw [show (0 : ℕ) + (⌈q⌉.toNat + 1) = ⌈q⌉.toNat + 1 from by omega]
    have h2 : q ≤ (⌈q⌉ : ℚ) := Int.le_ceil q
    have h3 : ((⌈q⌉ : ℤ) : ℚ) ≤ ((⌈q⌉.toNat : ℕ) : ℚ) := by
      exact_mod_cast Int.self_le_toNat _
    push_cast
    nlinarith [(Nat.cast_nonneg ⌈q⌉.toNat : (0:ℚ) ≤ _)]
  · exact fun m hm => sqrtCeilAux_min q _ 0
      (fun k hk => absurd hk (Nat.not_lt_zero k)) m hm

theorem sqrtCeil_pos {q : ℚ} (hq : 0 < q) : 0 < sqrtCeil q := by
  rw [sqrtCeil]
  simp only [sqrtCeilAux]
  have h0 : ¬ q ≤ ((0 : ℕ) : ℚ) ^ 2 := by simpa using not_le.mpr hq
  rw [if_neg h0]
  exact lt_of_lt_of_le one_pos (sqrtCeilAux_le q _ (0 + 1))

/-- Claim C8 (counterexample): on the zero-displacement segment,
`to_tikz` does not succeed: `num_segments` is `ceil(0 / 1) = 0` and the
computation of `self.x / num_segments` raises `ZeroDivisionError`
(modelled by `none`), instead of emitting `N = 0` strokes. -/
theorem to_tikz_zero_segment_error :
    (⟨0, 0, (0, 0)⟩ : LineSegment).to_tikz 1 = none := by
  norm_num [LineSegment.to_tikz, num_segments, sqrtCeil, sqrtCeilAux]

/-- Claim C8 (amended): for every segment of nonzero displacement and
every precision > 0, `to_tikz` succeeds and emits
`N = num_segments = ceil(length(segment)/precision)` strokes, each with
displacement `(dx/N, dy/N)`, and the stroke displacements sum exactly to
the segment's `(dx, dy)`. -/
theorem to_tikz_spec (s : LineSegment) (precision : ℚ)
    (hp : 0 < precision) (hnz : ¬(s.x = 0 ∧ s.y = 0)) :
    ∃ L, s.to_tikz precision = some L ∧
      (L.length : ℤ) = num_segments s precision ∧
      (∀ st ∈ L, st.2.1 = s.x / ((num_segments s precision : ℤ) : ℚ) ∧
        st.2.2 = s.y / ((num_segments s precision : ℤ) : ℚ)) ∧
      strokesSumX L = s.x ∧ strokesSumY L = s.y := by
  have hS : 0 < s.x ^ 2 + s.y ^ 2 := by
    rcases not_and_or.mp hnz with h | h
    · have h1 : 0 < s.x ^ 2 := lt_of_le_of_ne (sq_nonneg _) (Ne.symm (pow_ne_zero 2 h))
      nlinarith [sq_nonneg s.y]
    · have h1 : 0 < s.y ^ 2 := lt_of_le_of_ne (sq_nonneg _) (Ne.symm (pow_ne_zero 2 h))
      nlinarith [sq_nonneg s.x]
  have hq : 0 < (s.x ^ 2 + s.y ^ 2) / precision ^ 2 := div_pos hS (by positivity)
  have hn : num_segments s precision = (sqrtCeil ((s.x ^ 2 + s.y ^ 2) / precision ^ 2) : ℤ) := by
    rw [num_segments, if_pos hp]
  have hnpos : 0 < sqrtCeil ((s.x ^ 2 + s.y ^ 2) / precision ^ 2) := sqrtCeil_pos hq
  have hne : ¬ num_segments s precision = 0 := by
    rw [hn]
    exact_mod_cast Nat.pos_iff_ne_zero.mp hnpos
  have hzcast : ((num_segments s precision).toNat : ℤ) = num_segments s precision :=
    Int.toNat_of_nonneg (by rw [hn]; positivity)
  have hcast : (((num_segments s precision).toNat : ℕ) : ℚ) =
      ((num_segments s precision : ℤ) : ℚ) := by
    exact_mod_cast hzcast
  have hcne : ((num_segments s precision : ℤ) : ℚ) ≠ 0 := by
    rw [hn]
    push_cast
    exact_mod_cast Nat.pos_iff_ne_zero.mp hnpos
  simp only [LineSegment.to_tikz]
  rw [if_neg (ne_of_gt hp), if_neg hne]
  refine ⟨_, rfl, ?_, ?_, ?_, ?_⟩
  · simp only [List.length_map, List.length_range]
    exact hzcast
  · intro st hst
    simp only [List.mem_map] at hst
    obtain ⟨i, hi, hst⟩ := hst
    subst hst
    exact ⟨rfl, rfl⟩
  · simp only [strokesSumX, List.map_map, Function.comp_def]
    rw [List.map_const', List.sum_replicate, List.length_range, nsmul_eq_mul, hcast]
    field_simp
  · simp only [strokesSumY, List.map_map, Function.comp_def]
    rw [List.map_const', List.sum_replicate, List.length_range, nsmul_eq_mul, hcast]
    field_simp

theorem to_tikz_spec_witness :
    ∃ L, (⟨3, 4, (0, 1)⟩ : LineSegment).to_tikz 2 = some L ∧
      (L.length : ℤ) = num_segments ⟨3, 4, (0, 1)⟩ 2 ∧
      (∀ st ∈ L,
        st.2.1 = (⟨3, 4, (0, 1)⟩ : LineSegment).x / ((num_segments ⟨3, 4, (0, 1)⟩ 2 : ℤ) : ℚ) ∧
        st.2.2 = (⟨3, 4, (0, 1)⟩ : LineSegment).y / ((num_segments ⟨3, 4, (0, 1)⟩ 2 : ℤ) : ℚ)) ∧
      strokesSumX L = (⟨3, 4, (0, 1)⟩ : LineSegment).x ∧
      strokesSumY L = (⟨3, 4, (0, 1)⟩ : LineSegment).y :=
  to_tikz_spec ⟨3, 4, (0, 1)⟩ 2 (by norm_num) (by norm_num)

theorem get_color_eq_hueToRGB255 (s : LineSegment) (lo hi : ℚ) :
    s.get_color lo hi =
      hueToRGB255 (s.style.1 + (s.style.2 - s.style.1) * ((lo + hi) / 2)) := rfl

theorem strokeHue_mono (s : LineSegment) (m : ℕ) (hab : s.style.1 ≤ s.style.2)
    {i j : ℕ} (hij : i ≤ j) : strokeHue s m i ≤ strokeHue s m j := by
  rw [strokeHue, strokeHue]
  have hd : (0:ℚ) < 2 * ((m : ℚ) + 1) := by positivity
  have hij2 : (i : ℚ) ≤ j := by exact_mod_cast hij
  have hnum : (2 * (i:ℚ) + 1) / (2 * ((m:ℚ) + 1)) ≤
      (2 * (j:ℚ) + 1) / (2 * ((m:ℚ) + 1)) := by
    exact div_le_div_of_nonneg_right (by linarith) hd.le
  have hD : 0 ≤ s.style.2 - s.style.1 := sub_nonneg.mpr hab
  have := mul_le_mul_of_nonneg_left hnum hD
  linarith

/-- Claim C9: when `to_tikz` emits a list `L` of `N` strokes, the color
of the 0-indexed `i`-th stroke is the HSV-to-RGB conversion (saturation
1, value 1, channels scaled to `[0, 255]` and rounded) of the hue
`style.1 + (style.2 - style.1) · (2i+1)/(2(N+1))` — the midpoint of the
span `[i/(N+1), (i+1)/(N+1)]`, with denominator `N + 1` rather than
`N` — and for `style.1 ≤ style.2` these hues are monotonically
non-decreasing from each stroke to the next. -/
theorem to_tikz_color_spec (s : LineSegment) (precision : ℚ)
    (L : List ((ℤ × ℤ × ℤ) × ℚ × ℚ)) (hL : s.to_tikz precision = some L) :
    (∀ i, ∀ hi : i < L.length,
        (L.get ⟨i, hi⟩).1 = hueToRGB255 (strokeHue s L.length i)) ∧
    (s.style.1 ≤ s.style.2 → ∀ i j : ℕ, i ≤ j →
        strokeHue s L.length i ≤ strokeHue s L.length j) := by
  refine ⟨?_, fun hab i j hij => strokeHue_mono s _ hab hij⟩
  simp only [LineSegment.to_tikz] at hL
  by_cases hp0 : precision = 0
  · rw [if_pos hp0] at hL
    exact absurd hL (by simp)
  · rw [if_neg hp0] at hL
    by_cases hn0 : num_segments s precision = 0
    · rw [if_pos hn0] at hL
      exact absurd hL (by simp)
    · rw [if_neg hn0, Option.some.injEq] at hL
      subst hL
      intro i hi
      rcases lt_or_gt_of_ne hn0 with hneg | hpos
      · exfalso
        have h0 : (num_segments s precision).toNat = 0 := Int.toNat_of_nonpos hneg.le
        simp only [List.length_map, List.length_range, h0] at hi
        omega
      · have hc : (((num_segments s precision).toNat : ℕ) : ℚ) =
            ((num_segments s precision : ℤ) : ℚ) := by
          exact_mod_cast Int.toNat_of_nonneg hpos.le
        have hcpos : (0:ℚ) < ((num_segments s precision : ℤ) : ℚ) := by
          exact_mod_cast hpos
        simp only [List.get_eq_getElem, List.getElem_map, List.getElem_range,
          List.length_map, List.length_range]
        rw [get_color_eq_hueToRGB255]
        congr 1
        rw [strokeHue, hc]
        have hne1 : ((num_segments s precision : ℤ) : ℚ) + 1 ≠ 0 := by linarith
        field_simp
        ring

theorem to_tikz_color_spec_witness :
    (∀ i, ∀ hi : i < redStrokes.length,
        (redStrokes.get ⟨i, hi⟩).1 = hueToRGB255 (strokeHue rgbSeg redStrokes.length i)) ∧
    (rgbSeg.style.1 ≤ rgbSeg.style.2 → ∀ i j : ℕ, i ≤ j →
        strokeHue rgbSeg redStrokes.length i ≤ strokeHue rgbSeg redStrokes.length j) := by
  apply to_tikz_color_spec rgbSeg 2 redStrokes
  have harg : (rgbSeg.x ^ 2 + rgbSeg.y ^ 2) / (2:ℚ) ^ 2 = 25/4 := by
    norm_num [rgbSeg]
  have hceil : ⌈(25:ℚ)/4⌉ = 7 := by
    rw [Int.ceil_eq_iff]
    norm_num
  have hsq : sqrtCeil (25/4) = 3 := by
    rw [sqrtCeil, hceil]
    norm_num [sqrtCeilAux]
  have hns : num_segments rgbSeg 2 = 3 := by
    simp only [num_segments]
    rw [if_pos (by norm_num : (0:ℚ) < 2), harg, hsq]
    norm_num
  simp only [LineSegment.to_tikz]
  rw [if_neg (by norm_num : ¬(2:ℚ) = 0), hns]
  rw [if_neg (by norm_num : ¬(3:ℤ) = 0)]
  rw [show ((3:ℤ)).toNat = 3 from rfl]
  rw [show List.range 3 = [0, 1, 2] from rfl]
  simp only [List.map]
  norm_num [rgbSeg, redStrokes, LineSegment.get_color, hsv_to_rgb, truncQ, pyRound]
